import Mathlib

/-!
Verification of the axis/metrics core of glyphsLib against its
natural-language specification.

The Lean definitions below are a shallow embedding of the Python source:

* `Lib/glyphsLib/builder/axes.py` — the Designspace Axis Builder
  (`to_designspace_axes`), the axis value codec (`user_loc_value_to_class`),
  the mapping construction helpers (`update_mapping_from_instances`,
  `is_identity`), the regular-master resolver (`get_regular_master`,
  `find_base_style`) and the axis range auditor (`check_axis_ranges`).
* `Lib/glyphsLib/classes.py` — the format-2 metric migration performed by
  `GSFontMaster.post_read` and `GSFontMaster._set_metric`.

Numeric locations are embedded as rationals (`ℚ`); all values appearing in
the claims are exactly representable.  Python `None` becomes `Option`,
Python dictionaries become association lists with the usual
update-in-place-or-append semantics, and Python exceptions become `Option`
results (`none` = the call raised).
-/

namespace GlyphsLib

/-! ### Association lists with Python `dict` semantics -/

/-- `lookup l k` is Python `d.get(k)`: the value of the first entry with key
`k`, or `None`. -/
def lookup {α β : Type} [DecidableEq α] : List (α × β) → α → Option β
  | [], _ => none
  | (k, v) :: rest, key => if k = key then some v else lookup rest key

/-- `insertAssoc l k v` is Python `d[k] = v` on an insertion-ordered dict:
update the first entry with key `k` in place, or append a new entry. -/
def insertAssoc {α β : Type} [DecidableEq α] : List (α × β) → α → β → List (α × β)
  | [], key, val => [(key, val)]
  | (k, v) :: rest, key, val =>
    if k = key then (k, val) :: rest else (k, v) :: insertAssoc rest key val

/-- Keys of an association list. -/
def keys {α β : Type} (l : List (α × β)) : List α := l.map Prod.fst

/-- `dictOfList l` is the Python dict built by inserting the pairs of `l`
in order (duplicate keys: last write wins, position of first occurrence). -/
def dictOfList {α β : Type} [DecidableEq α] (l : List (α × β)) : List (α × β) :=
  l.foldl (fun d p => insertAssoc d p.1 p.2) []

/-! ### Axis value codec (`builder/axes.py`) -/

/-- Modelled from the spec: the "fixed 9-point width-class table (entries
keyed by percentage)" referenced in §4.1; `WIDTH_CLASS_TO_VALUE` lives in
`builder/constants.py`, which is not part of the sources under review.  The
entries are pinned by the doctests within `builder/axes.py`
(`class_to_value('wdth', 7) = 125`, `user_loc_string_to_value('wdth',
'SemiCondensed') = 87.5`, `user_loc_value_to_class('wdth', 62) = 2`) and by
§8's exact round-trip examples.  The list is stated in ascending key order,
which is what Python's `sorted(WIDTH_CLASS_TO_VALUE.items())` produces. -/
def WIDTH_CLASS_TO_VALUE : List (Int × Rat) :=
  [(1, 50), (2, 125/2), (3, 75), (4, 175/2), (5, 100),
   (6, 225/2), (7, 125), (8, 150), (9, 200)]

/-- Python `int(q)` on a float/int: truncation toward zero. -/
def pyInt (q : Rat) : Int := if 0 ≤ q then q.floor else q.ceil

/-- Python's stable `min(items, key = |value - target|)`: fold keeping the
incumbent unless a strictly smaller distance appears, so the first minimal
element of the list wins ties. -/
def argminByDist (target : Rat) (best : Int × Rat) : List (Int × Rat) → Int × Rat
  | [] => best
  | p :: ps =>
    argminByDist target (if |p.2 - target| < |best.2 - target| then p else best) ps

/-- `user_loc_value_to_class` from `builder/axes.py`: for `wght` the value
is passed through Python `int`; for `wdth` the nearest entry of the sorted
width-class table is selected by Python `min` with an absolute-distance
key.  Any other tag raises `NotImplementedError` (`none`). -/
def user_loc_value_to_class (axis_tag : String) (user_loc : Rat) : Option Int :=
  if axis_tag = "wght" then some (pyInt user_loc)
  else if axis_tag = "wdth" then
    match WIDTH_CLASS_TO_VALUE with
    | [] => none
    | p :: ps => some (argminByDist user_loc p ps).1
  else none

/-! ### `find_base_style` and `get_regular_master` (`builder/axes.py`) -/

/-- Split a character list at every space, keeping empty chunks (the
recursion mirrors Python `str.split(" ")`). -/
def splitOnSpaceAux : List Char → List Char → List String
  | [], cur => [String.mk cur.reverse]
  | c :: cs, cur =>
    if c = ' ' then String.mk cur.reverse :: splitOnSpaceAux cs []
    else splitOnSpaceAux cs (c :: cur)

/-- Python `s.split(" ")`: split at every single space, keeping empty
pieces produced by leading, trailing or doubled spaces. -/
def splitOnSpace (s : String) : List String := splitOnSpaceAux s.data []

/-- Python `str.split()` restricted to spaces: split on runs of spaces and
drop empty tokens.  (The master names exercised by the spec contain no
other whitespace.) -/
def pySplit (s : String) : List String := (splitOnSpace s).filter (· ≠ "")

/-- A Glyphs axis: identifier, 4-letter tag and display name. -/
structure GSAxis where
  axisId : String
  axisTag : String
  name : String
deriving DecidableEq, Repr

/-- The slice of `GSFontMaster` consumed by the axis builder: identifier,
name, and the per-axis design (`internalAxesValues`) and user
(`externalAxesValues`) locations keyed by axis id (`None` when unset). -/
structure GSFontMaster where
  id : String
  name : String
  internalAxesValues : List (String × Rat)
  externalAxesValues : List (String × Rat)
deriving DecidableEq, Repr

/-- `find_base_style(masters)`: start from the whitespace-split tokens of
the first master's name and, for every master in turn, keep the tokens of
that master's name that also occur in the running base style.  Join the
result with single spaces. -/
def find_base_style (masters : List GSFontMaster) : String :=
  match masters with
  | [] => ""
  | m0 :: _ =>
    let base := masters.foldl
      (fun base m => (pySplit m.name).filter (fun s => s ∈ base))
      (pySplit m0.name)
    " ".intercalate base

/-- The base style described by claim C8's wording: the tokens of the
*first* master's name that occur in every master's name, in the first
master's order. -/
def find_base_style_firstOrder (masters : List GSFontMaster) : String :=
  match masters with
  | [] => ""
  | m0 :: _ =>
    " ".intercalate ((pySplit m0.name).filter
      (fun t => masters.all (fun m => decide (t ∈ pySplit m.name))))

/-- What `find_base_style` actually computes (claim C8 amended): the
tokens of the *last* master's name that occur in every master's name, in
the last master's order. -/
def find_base_style_lastOrder (masters : List GSFontMaster) : String :=
  match masters.getLast? with
  | none => ""
  | some mLast =>
    " ".intercalate ((pySplit mLast.name).filter
      (fun t => masters.all (fun m => decide (t ∈ pySplit m.name))))

/-! ### Custom parameters and the font object -/

/-- The values of the custom parameters consumed by this core (§6):
strings (`"Variable Font Origin"` / `"Variation Font Origin"`), numbers,
`{Axis, Location}` lists (`"Virtual Master"`, `"Axis Location"`) and the
tag-indexed `"Axis Mappings"` dictionary. -/
inductive CPValue where
  | str (s : String)
  | num (q : Rat)
  | locList (locs : List (String × Rat))
  | tagMap (m : List (String × List (Rat × Rat)))
deriving DecidableEq, Repr

/-- `customParameters[name]`: first-match-wins lookup by parameter name
(`CustomParametersProxy._update_lookup`, "the first wins"). -/
def lookupCP (params : List (String × CPValue)) (name : String) : Option CPValue :=
  lookup params name

/-- Extract the string payload of a custom parameter value; a non-string
payload never compares equal to a master id/name. -/
def cpString : Option CPValue → Option String
  | some (.str s) => some s
  | _ => none

/-- The slice of `GSInstance` consumed by the axis builder. -/
structure GSInstance where
  name : String
  isVariable : Bool
  exports : Bool
  internalAxesValues : List (String × Rat)
  externalAxesValues : List (String × Rat)
  customParameters : List (String × CPValue)
deriving DecidableEq, Repr

/-- The slice of `GSFont` consumed by the axis builder. -/
structure GSFont where
  masters : List GSFontMaster
  instances : List GSInstance
  axes : List GSAxis
  customParameters : List (String × CPValue)
deriving DecidableEq, Repr

/-- `get_regular_master(font)` from `builder/axes.py`.  `None` only when
the font has no masters.  A `"Variable Font Origin"` parameter (matched by
master id) takes precedence over the legacy `"Variation Font Origin"`
(matched by master name); a missing or unmatched origin falls through to
base-style matching and finally to the first master. -/
def get_regular_master (font : GSFont) : Option GSFontMaster :=
  match font.masters with
  | [] => none
  | m0 :: _ =>
    let byOrigin : Option GSFontMaster :=
      match lookupCP font.customParameters "Variable Font Origin" with
      | some v =>
        match cpString (some v) with
        | some regularId =>
          if regularId ≠ "" then font.masters.find? (fun m => m.id = regularId)
          else none
        | none => none
      | none =>
        match cpString (lookupCP font.customParameters "Variation Font Origin") with
        | some regularName =>
          if regularName ≠ "" then font.masters.find? (fun m => m.name = regularName)
          else none
        | none => none
    some
      (match byOrigin with
      | some m => m
      | none =>
        let baseStyle0 := find_base_style font.masters
        let baseStyle := if baseStyle0 = "" then "Regular" else baseStyle0
        match font.masters.find? (fun m => m.name = baseStyle) with
        | some m => m
        | none =>
          -- second try: the name with the single token "Regular" removed
          -- (Python splits on single spaces here, keeping empty tokens)
          match font.masters.find? (fun m =>
            " ".intercalate ((splitOnSpace m.name).filter (· ≠ "Regular")) = baseStyle) with
          | some m => m
          | none => m0)

/-! ### Mapping construction (`builder/axes.py`) -/

/-- `update_mapping_from_instances(mapping, instances, axis,
minimize_glyphs_diffs, cp_only)`: skip variable instances; for every
exporting instance (or any instance when minimizing diffs) whose user
location is set, record `user ↦ design` (last write wins).  The `cp_only`
argument is accepted but never read by the body. -/
def update_mapping_from_instances (mapping : List (Rat × Option Rat))
    (instances : List GSInstance) (axis : GSAxis)
    (minimize_glyphs_diffs : Bool) (_cp_only : Bool) : List (Rat × Option Rat) :=
  instances.foldl
    (fun m inst =>
      if inst.isVariable then m
      else if inst.exports || minimize_glyphs_diffs then
        let designLoc := lookup inst.internalAxesValues axis.axisId
        match lookup inst.externalAxesValues axis.axisId with
        | none => m
        | some userLoc => insertAssoc m userLoc designLoc
      else m)
    mapping

/-- `is_identity(mapping)`: every `user ↦ design` pair satisfies
`user == design` (a `None` design value never equals a number). -/
def is_identity (mapping : List (Rat × Option Rat)) : Bool :=
  mapping.all (fun p => p.2 = some p.1)

/-- `axisLocationToAxesValue` from `classes.py`: for each font axis, find
the first `"Axis Location"` entry naming that axis and, when its location
is truthy (set and nonzero), store it as the external axis value. -/
def axisLocationToAxesValue (axes : List GSAxis)
    (customParameters : List (String × CPValue))
    (external : List (String × Rat)) : List (String × Rat) :=
  match lookupCP customParameters "Axis Location" with
  | some (.locList axisLocations) =>
    axes.foldl
      (fun ext axis =>
        match axisLocations.find? (fun loc => loc.1 = axis.name) with
        | none => ext
        | some loc => if loc.2 ≠ 0 then insertAssoc ext axis.axisId loc.2 else ext)
      external
  | _ => external

/-- `piecewiseLinearMap` from `fontTools.varLib.models` (an external
collaborator of the builder), over exact rationals.  The unreachable
defaults in the interpolation branch are never taken: there `v` lies
strictly between the least and greatest key. -/
def piecewiseLinearMap (v : Rat) (mapping : List (Rat × Rat)) : Rat :=
  match mapping with
  | [] => v
  | p :: ps =>
    match lookup (p :: ps) v with
    | some r => r
    | none =>
      let kmin := (p :: ps).foldl (fun acc q => min acc q.1) p.1
      if v < kmin then v + (lookup (p :: ps) kmin).getD 0 - kmin
      else
        let kmax := (p :: ps).foldl (fun acc q => max acc q.1) p.1
        if v > kmax then v + (lookup (p :: ps) kmax).getD 0 - kmax
        else
          let below := (p :: ps).filter (fun q => q.1 < v)
          let above := (p :: ps).filter (fun q => v < q.1)
          match below, above with
          | a0 :: as_, b0 :: bs =>
            let a := (as_).foldl (fun acc q => if acc.1 < q.1 then q else acc) a0
            let b := (bs).foldl (fun acc q => if q.1 < acc.1 then q else acc) b0
            a.2 + (b.2 - a.2) * (v - a.1) / (b.1 - a.1)
          | _, _ => v

/-! ### The Designspace axis builder (`to_designspace_axes`) -/

/-- A Designspace axis descriptor as populated by `to_designspace_axes`.
`map = none` models an elided (absent) map. -/
structure AxisDescriptor where
  tag : String
  name : String
  minimum : Rat
  default : Rat
  maximum : Rat
  map : Option (List (Rat × Option Rat))
deriving DecidableEq, Repr

/-- Insert a pair into a list sorted by key (ascending). -/
def insertSorted (p : Rat × Option Rat) :
    List (Rat × Option Rat) → List (Rat × Option Rat)
  | [] => [p]
  | q :: qs => if p.1 ≤ q.1 then p :: q :: qs else q :: insertSorted p qs

/-- Python `sorted(mapping.items())` for a dict (keys unique, so only the
keys are ever compared). -/
def sortByKey : List (Rat × Option Rat) → List (Rat × Option Rat)
  | [] => []
  | p :: ps => insertSorted p (sortByKey ps)

/-- Python `min(mapping)`: least key, or an exception on an empty dict. -/
def dictMin : List (Rat × Option Rat) → Option Rat
  | [] => none
  | p :: ps => some (ps.foldl (fun acc q => min acc q.1) p.1)

/-- Python `max(mapping)`: greatest key, or an exception on an empty dict. -/
def dictMax : List (Rat × Option Rat) → Option Rat
  | [] => none
  | p :: ps => some (ps.foldl (fun acc q => max acc q.1) p.1)

/-- Extract the `"Axis Mappings"` payload. -/
def getTagMap : Option CPValue → Option (List (String × List (Rat × Rat)))
  | some (.tagMap m) => some m
  | _ => none

/-- The `virtual_masters` list built at the top of `to_designspace_axes`:
one `{axis name ↦ location}` dict per `"Virtual Master"` parameter. -/
def virtualMastersOf (font : GSFont) : List (List (String × Rat)) :=
  font.customParameters.filterMap
    (fun cp =>
      if cp.1 = "Virtual Master" then
        match cp.2 with
        | .locList v => some (dictOfList v)
        | _ => none
      else none)

/-- Outcome of the per-axis body of `to_designspace_axes`: a descriptor is
added, the axis is skipped (`continue`), or the iteration raises. -/
inductive AxisOutcome where
  | emitted (d : AxisDescriptor)
  | skipped
  | crashed
deriving DecidableEq, Repr

/-- Assembly of the emitted descriptor once extreme keys and regular user
location are at hand: `default` is the regular user location clamped into
`[minimum, maximum]`.  A `none` regular user location or a `none` extreme
(empty mapping) models the exception Python would raise
(`max(minimum, None)` resp. `min({})`). -/
def buildDescriptor (axis : GSAxis) (mapOpt : Option (List (Rat × Option Rat))) :
    Option Rat → Option Rat → Option Rat → AxisOutcome
  | some minimum, some maximum, some rul =>
    .emitted
      { tag := axis.axisTag
        name := axis.name
        minimum := minimum
        maximum := maximum
        default := min maximum (max minimum rul)
        map := mapOpt }
  | _, _, _ => .crashed

/-- The virtual-master extension step: every `"Virtual Master"` location
declared for this axis name is folded in as an identity `loc ↦ loc` pair.
-/
def extendVirtual (axis : GSAxis) (virtual_masters : List (List (String × Rat)))
    (mapping0 : List (Rat × Option Rat)) : List (Rat × Option Rat) :=
  virtual_masters.foldl
    (fun m vm =>
      vm.foldl
        (fun m2 loc =>
          if loc.1 = axis.name then insertAssoc m2 loc.2 (some loc.2) else m2)
        m)
    mapping0

/-- The tail of the per-axis body, shared by both branches: identity test,
virtual-master extension of an identity map, `minimum`/`maximum` as the
extreme keys of the (possibly extended) mapping, and the sorted map
attached only when not an identity (the extension never runs then, so the
sorted mapping equals the sorted original). -/
def finishAxis (axis : GSAxis) (virtual_masters : List (List (String × Rat)))
    (mapping0 : List (Rat × Option Rat)) (regularUserLoc : Option Rat) :
    AxisOutcome :=
  let is_identity_map := is_identity mapping0
  let mapping :=
    if is_identity_map then extendVirtual axis virtual_masters mapping0
    else mapping0
  buildDescriptor axis
    (if is_identity_map then none else some (sortByKey mapping))
    (dictMin mapping) (dictMax mapping) regularUserLoc

/-- The per-axis body of `to_designspace_axes`.  A truthy (present and
nonempty) `"Axis Mappings"` parameter selects the explicit-mapping branch:
an axis absent from it is skipped, and the regular user location is read
off the inverse piecewise-linear map.  Otherwise the mapping is inferred
from the masters (design defaults to 0, user defaults to design) and the
instances. -/
def processAxis (font : GSFont) (minimize_glyphs_diffs : Bool)
    (regular_master : GSFontMaster)
    (custom_mapping : Option (List (String × List (Rat × Rat))))
    (virtual_masters : List (List (String × Rat))) (axis : GSAxis) :
    AxisOutcome :=
  let customTruthy := match custom_mapping with
    | some m => !m.isEmpty
    | none => false
  if customTruthy then
    match custom_mapping with
    | none => .crashed
    | some cm =>
      match lookup cm axis.axisTag with
      | none => .skipped
      | some tagEntries =>
        let mapping : List (Rat × Option Rat) :=
          dictOfList (tagEntries.map (fun p => (p.1, some p.2)))
        let reverse_mapping : List (Rat × Rat) :=
          dictOfList ((sortByKey mapping).filterMap
            (fun p => p.2.map (fun d => (d, p.1))))
        let regularUserLoc? : Option (Option Rat) :=
          match lookup regular_master.internalAxesValues axis.axisId with
          | some v => some (some (piecewiseLinearMap v reverse_mapping))
          | none => if reverse_mapping.isEmpty then some none else none
        match regularUserLoc? with
        | none => .crashed
        | some regularUserLoc => finishAxis axis virtual_masters mapping regularUserLoc
  else
    let mapping : List (Rat × Option Rat) :=
      font.masters.foldl
        (fun m master =>
          let designLoc := (lookup master.internalAxesValues axis.axisId).getD 0
          let userLoc := (lookup master.externalAxesValues axis.axisId).getD designLoc
          insertAssoc m userLoc (some designLoc))
        []
    let mapping :=
      update_mapping_from_instances mapping font.instances axis
        minimize_glyphs_diffs true
    let regularDesignLoc := (lookup regular_master.internalAxesValues axis.axisId).getD 0
    let regularUserLoc :=
      (lookup regular_master.externalAxesValues axis.axisId).getD regularDesignLoc
    finishAxis axis virtual_masters mapping (some regularUserLoc)

/-- Fold of the per-axis body over the font's axis list; an exception in
any iteration aborts the whole call. -/
def collectAxes (font : GSFont) (minimize_glyphs_diffs : Bool)
    (regular_master : GSFontMaster)
    (custom_mapping : Option (List (String × List (Rat × Rat))))
    (virtual_masters : List (List (String × Rat))) :
    List GSAxis → Option (List AxisDescriptor)
  | [] => some []
  | a :: rest =>
    match processAxis font minimize_glyphs_diffs regular_master custom_mapping
        virtual_masters a with
    | .crashed => none
    | .skipped =>
      collectAxes font minimize_glyphs_diffs regular_master custom_mapping
        virtual_masters rest
    | .emitted d =>
      (collectAxes font minimize_glyphs_diffs regular_master custom_mapping
        virtual_masters rest).map (d :: ·)

/-- The do-nothing Weight axis emitted when no axis qualified. -/
def fallbackWeightAxis : AxisDescriptor :=
  { tag := "wght", name := "Weight", minimum := 0, default := 0, maximum := 0,
    map := none }

/-- `to_designspace_axes` from `builder/axes.py`, returning the list of
axis descriptors added to the designspace (`none` models an exception; a
font without masters returns early, adding nothing). -/
def to_designspace_axes (font : GSFont) (minimize_glyphs_diffs : Bool) :
    Option (List AxisDescriptor) :=
  match get_regular_master font with
  | none => some []
  | some regular_master =>
    match collectAxes font minimize_glyphs_diffs regular_master
        (getTagMap (lookupCP font.customParameters "Axis Mappings"))
        (virtualMastersOf font) font.axes with
    | none => none
    | some ds => some (if ds.isEmpty then [fallbackWeightAxis] else ds)

/-! ### The axis range auditor (`check_axis_ranges`) -/

/-- Python `x or y` on an optional number: `y` unless `x` is truthy (set
and nonzero). -/
def pyOrQ (a : Option Rat) (b : Rat) : Rat :=
  match a with
  | some q => if q = 0 then b else q
  | none => b

/-- `designspace.getAxisByTag`. -/
def getAxisByTag (designspace : List AxisDescriptor) (tag : String) :
    Option AxisDescriptor :=
  designspace.find? (fun d => d.tag = tag)

/-- The per-axis body of `check_axis_ranges`: resolve the designspace
descriptor by tag (`none` = failed assertion), compute the observed range,
and append up to two fresh `"Virtual Master"` parameters. -/
def checkAxisStep (font : GSFont) (designspace : List AxisDescriptor)
    (params : List (String × CPValue)) (axis : GSAxis) :
    Option (List (String × CPValue)) :=
  match getAxisByTag designspace axis.axisTag with
  | none => none
  | some axis_def =>
    let mm : Rat × Rat := font.masters.foldl
      (fun mm master =>
        let v := pyOrQ (lookup master.externalAxesValues axis.axisId)
          (pyOrQ (lookup master.internalAxesValues axis.axisId) 0)
        (min v mm.1, max v mm.2))
      (10000, -10000)
    let mm : Rat × Rat := params.foldl
      (fun mm cp =>
        if cp.1 = "Virtual Master" then
          match cp.2 with
          | .locList locs =>
            locs.foldl
              (fun mm loc =>
                if loc.1 = axis.name then (min loc.2 mm.1, max loc.2 mm.2)
                else mm)
              mm
          | _ => mm
        else mm)
      mm
    let params2 :=
      if axis_def.minimum < mm.1 then
        params ++ [("Virtual Master", CPValue.locList [(axis.name, axis_def.minimum)])]
      else params
    let params3 :=
      if axis_def.maximum > mm.2 then
        params2 ++ [("Virtual Master", CPValue.locList [(axis.name, axis_def.maximum)])]
      else params2
    some params3

/-- `check_axis_ranges` from `builder/axes.py`, returning the font's
updated custom-parameter list (`none` models the failed assertion when a
font axis has no designspace counterpart).  For each axis the observed
range folds each master's `userLoc or designLoc or 0` (Python truthiness)
into sentinels `10000`/`-10000`, then every `"Virtual Master"` location
for this axis name; a declared minimum below (maximum above) the observed
one appends a fresh one-entry `"Virtual Master"` parameter, visible to the
scans of the following axes. -/
def check_axis_ranges (font : GSFont) (designspace : List AxisDescriptor) :
    Option (List (String × CPValue)) :=
  font.axes.foldlM (checkAxisStep font designspace) font.customParameters

/-- The per-axis step as described by claim C6's wording, for comparison:
the master scan takes "the user location when it is set, the design
location as fallback when the user location is unset, and 0 as final
fallback" (`Option.getD` instead of Python truthiness); all else as in
the code. -/
def checkAxisStepSpec (font : GSFont) (designspace : List AxisDescriptor)
    (params : List (String × CPValue)) (axis : GSAxis) :
    Option (List (String × CPValue)) :=
  match getAxisByTag designspace axis.axisTag with
  | none => none
  | some axis_def =>
    let mm : Rat × Rat := font.masters.foldl
      (fun mm master =>
        let v := (lookup master.externalAxesValues axis.axisId).getD
          ((lookup master.internalAxesValues axis.axisId).getD 0)
        (min v mm.1, max v mm.2))
      (10000, -10000)
    let mm : Rat × Rat := params.foldl
      (fun mm cp =>
        if cp.1 = "Virtual Master" then
          match cp.2 with
          | .locList locs =>
            locs.foldl
              (fun mm loc =>
                if loc.1 = axis.name then (min loc.2 mm.1, max loc.2 mm.2)
                else mm)
              mm
          | _ => mm
        else mm)
      mm
    let params2 :=
      if axis_def.minimum < mm.1 then
        params ++ [("Virtual Master", CPValue.locList [(axis.name, axis_def.minimum)])]
      else params
    let params3 :=
      if axis_def.maximum > mm.2 then
        params2 ++ [("Virtual Master", CPValue.locList [(axis.name, axis_def.maximum)])]
      else params2
    some params3

/-- The auditor under the claim's set-based (rather than truthy) reading
of the location fallback. -/
def check_axis_ranges_spec (font : GSFont) (designspace : List AxisDescriptor) :
    Option (List (String × CPValue)) :=
  font.axes.foldlM (checkAxisStepSpec font designspace) font.customParameters

/-! ### Format-2 metric migration (`GSFontMaster.post_read`, `classes.py`) -/

/-- A font-level metric catalog entry (`GSMetric`): fresh opaque id,
metric type (`GSMetricsKeyUndefined` is Python `None`), optional name and
filter. -/
structure GSMetric where
  id : Nat
  metricType : Option String
  name : Option String
  filter : Option String
deriving DecidableEq, Repr

/-- A per-master metric value (`GSMetricValue`): position and overshoot
(`_set_metric`'s default overshoot is Python `None`). -/
structure GSMetricValue where
  position : Rat
  overshoot : Option Rat
deriving DecidableEq, Repr

/-- A legacy alignment zone (`GSAlignmentZone`). -/
structure GSAlignmentZone where
  position : Rat
  size : Rat
deriving DecidableEq, Repr

def GSMetricsKeyUndefined : Option String := none
def GSMetricsKeyAscender : Option String := some "ascender"
def GSMetricsKeyCapHeight : Option String := some "cap height"
def GSMetricsKeyxHeight : Option String := some "x-height"
def GSMetricsKeyBaseline : Option String := some "baseline"
def GSMetricsKeyDescender : Option String := some "descender"
def GSMetricsKeyItalicAngle : Option String := some "italic angle"

/-- The state touched by the metrics section of `GSFontMaster.post_read`
for a format-2 master: the font's metric catalog (shared, insertion
ordered), the master's per-metric values (a dict keyed by metric id), a
counter supplying fresh metric ids, the read buffer entries stashed by the
legacy attribute setters, the `"smallCapHeight"` custom parameter and the
parsed legacy alignment zones. -/
structure MasterReadState where
  fontMetrics : List GSMetric
  masterMetrics : List (Nat × GSMetricValue)
  nextId : Nat
  rbAscender : Option (Rat × Option Rat)
  rbCapHeight : Option (Rat × Option Rat)
  rbXHeight : Option (Rat × Option Rat)
  rbBaseline : Option (Rat × Option Rat)
  rbDescender : Option (Rat × Option Rat)
  rbItalicAngle : Option (Rat × Option Rat)
  smallCapHeight : Option Rat
  alignmentZones : Option (List GSAlignmentZone)
deriving DecidableEq, Repr

/-- `GSFontMaster._set_metric` (with the font attached): find the first
catalog metric with the same type, name and filter, creating and appending
one if absent, then store a fresh `{position, overshoot}` value for it. -/
def set_metric (st : MasterReadState) (metricType : Option String)
    (position : Rat) (overshoot : Option Rat)
    (name : Option String) (filter : Option String) : MasterReadState :=
  match st.fontMetrics.find?
      (fun m => decide (m.metricType = metricType ∧ m.name = name ∧ m.filter = filter)) with
  | some metric =>
    { st with masterMetrics := insertAssoc st.masterMetrics metric.id ⟨position, overshoot⟩ }
  | none =>
    let metric : GSMetric :=
      { id := st.nextId, metricType := metricType, name := name, filter := filter }
    { st with
        fontMetrics := st.fontMetrics ++ [metric]
        nextId := st.nextId + 1
        masterMetrics := insertAssoc st.masterMetrics metric.id ⟨position, overshoot⟩ }

/-- `GSFontMaster._get_metric`: the master's value for the first catalog
metric with the given type and filter (the name is not compared); `none`
models both the missing-metric and missing-value exceptions of the caller.
-/
def get_metric (st : MasterReadState) (metricType : Option String)
    (filter : Option String) : Option GSMetricValue :=
  match st.fontMetrics.find?
      (fun m => decide (m.metricType = metricType ∧ m.filter = filter)) with
  | none => none
  | some metric => lookup st.masterMetrics metric.id

/-- Python `list.remove`: drop the first equal element. -/
def removeFirst (zones : List GSAlignmentZone) (z : GSAlignmentZone) :
    List GSAlignmentZone :=
  match zones with
  | [] => []
  | w :: ws => if w = z then ws else w :: removeFirst ws z

/-- The inner loop of the alignment-zone absorption: iterate a snapshot of
the live zone list; every zone within one unit of the metric's position
overwrites its overshoot with `zone.position + zone.size − position` and
is removed from the live list. -/
def zoneLoopForMetric (mv : GSMetricValue) (live : List GSAlignmentZone) :
    GSMetricValue × List GSAlignmentZone :=
  live.foldl
    (fun acc z =>
      if |z.position - acc.1.position| ≤ 1 then
        ({ acc.1 with overshoot := some (z.position + z.size - acc.1.position) },
         removeFirst acc.2 z)
      else acc)
    (mv, live)

/-- The metrics section of `GSFontMaster.post_read` for a format-2 master
(the `self._metrics` is-a-dict branch): set the five legacy fixed metrics
from the read buffer, absorb a truthy `"smallCapHeight"` parameter into a
filtered x-height metric and delete it, match legacy alignment zones
against the master's metric values (consumed zones set overshoots; each
leftover zone goes through `_set_metric` with the undefined type — the
sequential `"zone %d"` key is computed by the source but never passed),
clear the zone list, and finally set the italic-angle metric.  `none`
models the exception when no x-height value exists for the small-cap
absorption. -/
def postReadMetrics (st0 : MasterReadState) : Option MasterReadState :=
  let pAsc := st0.rbAscender.getD (0, some 0)
  let pCap := st0.rbCapHeight.getD (0, some 0)
  let pX := st0.rbXHeight.getD (0, some 0)
  let pBase := st0.rbBaseline.getD (0, some 0)
  let pDesc := st0.rbDescender.getD (0, some 0)
  let st1 := set_metric st0 GSMetricsKeyAscender pAsc.1 pAsc.2 none none
  let st2 := set_metric st1 GSMetricsKeyCapHeight pCap.1 pCap.2 none none
  let st3 := set_metric st2 GSMetricsKeyxHeight pX.1 pX.2 none none
  let st4 := set_metric st3 GSMetricsKeyBaseline pBase.1 pBase.2 none none
  let st5 := set_metric st4 GSMetricsKeyDescender pDesc.1 pDesc.2 none none
  let st6? : Option MasterReadState :=
    match st5.smallCapHeight with
    | some param =>
      if param ≠ 0 then
        match get_metric st5 GSMetricsKeyxHeight none with
        | none => none
        | some xv =>
          some { set_metric st5 GSMetricsKeyxHeight param xv.overshoot none
                   (some "case == 3") with
                 smallCapHeight := none }
      else some st5
    | none => some st5
  match st6? with
  | none => none
  | some st6 =>
    let st7 :=
      match st6.alignmentZones with
      | some zones =>
        if !zones.isEmpty then
          let step := st6.masterMetrics.foldl
            (fun (acc : List (Nat × GSMetricValue) × List GSAlignmentZone) entry =>
              let r := zoneLoopForMetric entry.2 acc.2
              (acc.1 ++ [(entry.1, r.1)], r.2))
            ([], zones)
          let stA := { st6 with masterMetrics := step.1 }
          let stB := step.2.foldl
            (fun s z => set_metric s GSMetricsKeyUndefined z.position (some z.size) none none)
            stA
          { stB with alignmentZones := none }
        else { st6 with alignmentZones := none }
      | none => { st6 with alignmentZones := none }
    let pIt := st7.rbItalicAngle.getD (0, some 0)
    some (set_metric st7 GSMetricsKeyItalicAngle pIt.1 pIt.2 none none)

/-- The default metric catalog installed by `GSFont.__init__`
(`_defaultMetrics`): ascender, cap height, x-height, baseline, descender,
no names, no filters. -/
def defaultFontMetrics : List GSMetric :=
  [{ id := 0, metricType := GSMetricsKeyAscender, name := none, filter := none },
   { id := 1, metricType := GSMetricsKeyCapHeight, name := none, filter := none },
   { id := 2, metricType := GSMetricsKeyxHeight, name := none, filter := none },
   { id := 3, metricType := GSMetricsKeyBaseline, name := none, filter := none },
   { id := 4, metricType := GSMetricsKeyDescender, name := none, filter := none }]

/-! ## Helper lemmas -/


/-- The stable argmin is the incumbent or a list element. -/
lemma argminByDist_choice (t : Rat) :
    ∀ (l : List (Int × Rat)) (best : Int × Rat),
      argminByDist t best l = best ∨ argminByDist t best l ∈ l := by
  intro l
  induction l with
  | nil => intro best; left; rfl
  | cons q qs ih =>
    intro best
    by_cases hc : |q.2 - t| < |best.2 - t|
    · have hun : argminByDist t best (q :: qs) = argminByDist t q qs := by
        show argminByDist t (if |q.2 - t| < |best.2 - t| then q else best) qs = _
        rw [if_pos hc]
      rw [hun]
      rcases ih q with h | h
      · right; rw [h]; exact List.mem_cons_self q qs
      · right; exact List.mem_cons_of_mem q h
    · have hun : argminByDist t best (q :: qs) = argminByDist t best qs := by
        show argminByDist t (if |q.2 - t| < |best.2 - t| then q else best) qs = _
        rw [if_neg hc]
      rw [hun]
      rcases ih best with h | h
      · left; exact h
      · right; exact List.mem_cons_of_mem q h

/-- The stable argmin minimizes the distance over the incumbent and the
list. -/
lemma argminByDist_le (t : Rat) :
    ∀ (l : List (Int × Rat)) (best p : Int × Rat), p = best ∨ p ∈ l →
      |(argminByDist t best l).2 - t| ≤ |p.2 - t| := by
  intro l
  induction l with
  | nil =>
    intro best p hp
    rcases hp with hb | h
    · rw [hb]; exact le_refl _
    · cases h
  | cons q qs ih =>
    intro best p hp
    by_cases hc : |q.2 - t| < |best.2 - t|
    · have hun : argminByDist t best (q :: qs) = argminByDist t q qs := by
        show argminByDist t (if |q.2 - t| < |best.2 - t| then q else best) qs = _
        rw [if_pos hc]
      rw [hun]
      rcases hp with hb | hq
      · rw [hb]
        exact (ih q q (Or.inl rfl)).trans hc.le
      · rcases List.mem_cons.mp hq with hb | hm
        · rw [hb]; exact ih q q (Or.inl rfl)
        · exact ih q p (Or.inr hm)
    · have hun : argminByDist t best (q :: qs) = argminByDist t best qs := by
        show argminByDist t (if |q.2 - t| < |best.2 - t| then q else best) qs = _
        rw [if_neg hc]
      rw [hun]
      rcases hp with hb | hq
      · rw [hb]; exact ih best best (Or.inl rfl)
      · rcases List.mem_cons.mp hq with hb | hm
        · rw [hb]; exact (ih best best (Or.inl rfl)).trans (not_lt.mp hc)
        · exact ih best p (Or.inr hm)

/-- On a key-sorted list, the stable argmin breaks distance ties toward
the lower key: Python `min` keeps the first minimal element. -/
lemma argminByDist_tiebreak (t : Rat) :
    ∀ (l : List (Int × Rat)) (best : Int × Rat),
      List.Pairwise (fun a b : Int × Rat => a.1 ≤ b.1) (best :: l) →
      ∀ p, (p = best ∨ p ∈ l) → |p.2 - t| = |(argminByDist t best l).2 - t| →
        (argminByDist t best l).1 ≤ p.1 := by
  intro l
  induction l with
  | nil =>
    intro best _ p hp _
    rcases hp with hb | h
    · rw [hb]; exact le_refl _
    · cases h
  | cons q qs ih =>
    intro best hpw p hp heq
    have hbq : best.1 ≤ q.1 := (List.pairwise_cons.mp hpw).1 q (List.mem_cons_self q qs)
    rcases List.pairwise_cons.mp hpw with ⟨hbest, hqqs⟩
    rcases List.pairwise_cons.mp hqqs with ⟨_, hqs⟩
    by_cases hc : |q.2 - t| < |best.2 - t|
    · have hun : argminByDist t best (q :: qs) = argminByDist t q qs := by
        show argminByDist t (if |q.2 - t| < |best.2 - t| then q else best) qs = _
        rw [if_pos hc]
      rw [hun] at heq ⊢
      rcases hp with hb | hq2
      · exfalso
        have h1 : |(argminByDist t q qs).2 - t| ≤ |q.2 - t| :=
          argminByDist_le t qs q q (Or.inl rfl)
        rw [hb] at heq
        have h2 : |best.2 - t| ≤ |q.2 - t| := by rw [heq]; exact h1
        exact absurd (hc.trans_le h2) (lt_irrefl _)
      · rcases List.mem_cons.mp hq2 with hb | hm
        · rw [hb] at heq ⊢
          exact ih q hqqs q (Or.inl rfl) heq
        · exact ih q hqqs p (Or.inr hm) heq
    · have hun : argminByDist t best (q :: qs) = argminByDist t best qs := by
        show argminByDist t (if |q.2 - t| < |best.2 - t| then q else best) qs = _
        rw [if_neg hc]
      rw [hun] at heq ⊢
      have hpw2 : List.Pairwise (fun a b : Int × Rat => a.1 ≤ b.1) (best :: qs) :=
        List.pairwise_cons.mpr
          ⟨fun x hx => hbest x (List.mem_cons_of_mem q hx), hqs⟩
      rcases hp with hb | hq2
      · rw [hb] at heq ⊢
        exact ih best hpw2 best (Or.inl rfl) heq
      · rcases List.mem_cons.mp hq2 with hb | hm
        · rw [hb] at heq ⊢
          have hres : |(argminByDist t best qs).2 - t| ≤ |best.2 - t| :=
            argminByDist_le t qs best best (Or.inl rfl)
          have hbe : |best.2 - t| = |(argminByDist t best qs).2 - t| := by
            refine le_antisymm ?_ hres
            rw [← heq]
            exact not_lt.mp hc
          exact (ih best hpw2 best (Or.inl rfl) hbe).trans hbq
        · exact ih best hpw2 p (Or.inr hm) heq

/-! ## Claims -/

section ConcreteEvaluation

attribute [local semireducible] Rat.add Rat.sub Rat.mul Rat.inv

set_option maxRecDepth 8000 in
/-- C7, counterexample: at `v = 310.7` the weight branch returns
`int(310.7) = 310` (Python `int` truncates toward zero), although the
nearest integer is `311`.  The claim's "rounded to the nearest integer"
is false on the code. -/
theorem C7_counterexample :
    user_loc_value_to_class "wght" (3107/10) = some 310 ∧
    |(311 : Rat) - 3107/10| < |(310 : Rat) - 3107/10| := by
  constructor
  · decide
  · decide

end ConcreteEvaluation

/-- C7 (amended): for every value `v`, the weight branch of
`user_loc_value_to_class` returns `v` truncated toward zero (Python
`int`), and the width branch returns the key of a width-class table entry
whose value is nearest to `v`, ties broken toward the lower key (the table
is sorted by key before the nearest-match selection). -/
theorem C7_theorem (v : Rat) :
    user_loc_value_to_class "wght" v = some (pyInt v) ∧
    ∀ k, user_loc_value_to_class "wdth" v = some k →
      ∃ val, (k, val) ∈ WIDTH_CLASS_TO_VALUE ∧
        ∀ p ∈ WIDTH_CLASS_TO_VALUE,
          |val - v| ≤ |p.2 - v| ∧ (|p.2 - v| = |val - v| → k ≤ p.1) := by
  constructor
  · rfl
  · intro k hk
    have hw : user_loc_value_to_class "wdth" v
        = some (argminByDist v (1, 50)
            [(2, 125/2), (3, 75), (4, 175/2), (5, 100),
             (6, 225/2), (7, 125), (8, 150), (9, 200)]).1 := rfl
    rw [hw] at hk
    have hk2 : (argminByDist v (1, 50)
        [(2, 125/2), (3, 75), (4, 175/2), (5, 100),
         (6, 225/2), (7, 125), (8, 150), (9, 200)]).1 = k :=
      Option.some.inj hk
    refine ⟨(argminByDist v (1, 50)
        [(2, 125/2), (3, 75), (4, 175/2), (5, 100),
         (6, 225/2), (7, 125), (8, 150), (9, 200)]).2, ?_, ?_⟩
    · rw [← hk2]
      rcases argminByDist_choice v
          [(2, 125/2), (3, 75), (4, 175/2), (5, 100),
           (6, 225/2), (7, 125), (8, 150), (9, 200)] (1, 50) with h | h
      · rw [h]
        exact List.mem_cons_self _ _
      · exact List.mem_cons_of_mem _ h
    · intro p hp
      have hp2 : p = ((1 : Int), (50 : Rat)) ∨ p ∈
          [((2 : Int), (125/2 : Rat)), (3, 75), (4, 175/2), (5, 100),
           (6, 225/2), (7, 125), (8, 150), (9, 200)] := by
        rcases List.mem_cons.mp hp with h | h
        · exact Or.inl h
        · exact Or.inr h
      constructor
      · exact argminByDist_le v _ (1, 50) p hp2
      · intro he
        rw [← hk2]
        refine argminByDist_tiebreak v _ (1, 50) ?_ p hp2 he
        decide

section ConcreteEvaluation2

attribute [local semireducible] Rat.add Rat.sub Rat.mul Rat.inv

set_option maxRecDepth 8000 in
/-- C7, witness: the amended theorem applied at `v = 62` (the spec's own
exact example `user_loc_value_to_class("wdth", 62) = 2`). -/
theorem C7_witness :
    user_loc_value_to_class "wdth" 62 = some 2 ∧
    ∃ val, ((2 : Int), val) ∈ WIDTH_CLASS_TO_VALUE ∧
      ∀ p ∈ WIDTH_CLASS_TO_VALUE,
        |val - 62| ≤ |p.2 - 62| ∧ (|p.2 - 62| = |val - 62| → 2 ≤ p.1) :=
  ⟨by decide, (C7_theorem 62).2 2 (by decide)⟩

end ConcreteEvaluation2

/-- The iterated token filtering of `find_base_style`, characterized: the
final base style consists of the tokens of the last list element's name
that lie in the initial accumulator and in every element's token list. -/
lemma base_fold_eq (l : List GSFontMaster) :
    ∀ acc : List String,
      l.foldl (fun base m => (pySplit m.name).filter (fun s => s ∈ base)) acc
      = (match l.getLast? with
         | none => acc
         | some mL => (pySplit mL.name).filter
             (fun t => decide (t ∈ acc) && l.all (fun m => decide (t ∈ pySplit m.name)))) := by
  induction l with
  | nil => intro acc; rfl
  | cons m ls ih =>
    intro acc
    rw [List.foldl_cons]
    cases ls with
    | nil =>
      show (pySplit m.name).filter (fun s => decide (s ∈ acc)) = _
      apply List.filter_congr
      intro x hx
      simp [hx]
    | cons m2 ls2 =>
      rw [ih ((pySplit m.name).filter (fun s => s ∈ acc))]
      cases hL : (m2 :: ls2).getLast? with
      | none => simp at hL
      | some L =>
        rw [List.getLast?_cons_cons, hL]
        apply List.filter_congr
        intro x hx
        by_cases h1 : x ∈ acc
        · by_cases h2 : x ∈ pySplit m.name
          · simp [h1, h2, List.mem_filter]
          · simp [h1, h2, List.mem_filter]
        · by_cases h2 : x ∈ pySplit m.name
          · simp [h1, h2, List.mem_filter]
          · simp [h1, h2, List.mem_filter]

/-- C8, counterexample: for masters named "Bold Condensed" and
"Condensed Bold" every token is shared, and `find_base_style` returns
"Condensed Bold" — the order of the *last* master's name — not the
"Bold Condensed" demanded by the claim's "preserving the token order of
the first master's name". -/
theorem C8_counterexample :
    find_base_style
      [{ id := "m1", name := "Bold Condensed",
         internalAxesValues := [], externalAxesValues := [] },
       { id := "m2", name := "Condensed Bold",
         internalAxesValues := [], externalAxesValues := [] }]
      = "Condensed Bold" ∧
    find_base_style_firstOrder
      [{ id := "m1", name := "Bold Condensed",
         internalAxesValues := [], externalAxesValues := [] },
       { id := "m2", name := "Condensed Bold",
         internalAxesValues := [], externalAxesValues := [] }]
      = "Bold Condensed" ∧
    ("Condensed Bold" : String) ≠ "Bold Condensed" := by
  refine ⟨by decide, by decide, by decide⟩

/-- C8 (amended): for every master list, `find_base_style` returns the
tokens of the *last* master's name that occur in every master's name, in
the last master's order (so still the empty string when no common token
exists). -/
theorem C8_theorem (masters : List GSFontMaster) :
    find_base_style masters = find_base_style_lastOrder masters := by
  cases masters with
  | nil => rfl
  | cons m0 rest =>
    show " ".intercalate
        ((m0 :: rest).foldl (fun base m => (pySplit m.name).filter (fun s => s ∈ base))
          (pySplit m0.name)) = _
    rw [base_fold_eq]
    cases hL : (m0 :: rest).getLast? with
    | none => simp at hL
    | some L =>
      show " ".intercalate ((pySplit L.name).filter _) = _
      rw [find_base_style_lastOrder, hL]
      congr 1
      apply List.filter_congr
      intro x hx
      by_cases h0 : x ∈ pySplit m0.name
      · simp [h0, List.all_cons]
      · simp [h0, List.all_cons]

/-- Instances whose user location is unset along the axis contribute no
pair: the `userLoc is None` guard skips them before the mapping update. -/
lemma update_mapping_unset (mapping : List (Rat × Option Rat))
    (instances : List GSInstance) (axis : GSAxis) (md cp : Bool)
    (h : ∀ inst ∈ instances, lookup inst.externalAxesValues axis.axisId = none) :
    update_mapping_from_instances mapping instances axis md cp = mapping := by
  induction instances generalizing mapping with
  | nil => rfl
  | cons i is ih =>
    have hi := h i (List.mem_cons_self i is)
    have hrest : ∀ inst ∈ is, lookup inst.externalAxesValues axis.axisId = none :=
      fun inst hm => h inst (List.mem_cons_of_mem i hm)
    have ihm := ih mapping hrest
    unfold update_mapping_from_instances at ihm ⊢
    rw [List.foldl_cons]
    by_cases hv : i.isVariable = true
    · rw [if_pos hv]
      exact ihm
    · rw [if_neg hv]
      by_cases he : (i.exports || md) = true
      · rw [if_pos he]
        simp only [hi]
        exact ihm
      · rw [if_neg he]
        exact ihm

/-- C10: an instance whose external (user-space) axis value is unset
(`None`) contributes no `(user, design)` pair in
`update_mapping_from_instances`; when every instance in the list has an
unset user location the mapping comes back unchanged. -/
theorem C10_theorem (mapping : List (Rat × Option Rat))
    (instances : List GSInstance) (axis : GSAxis)
    (minimize_glyphs_diffs cp_only : Bool)
    (h : ∀ inst ∈ instances, lookup inst.externalAxesValues axis.axisId = none) :
    update_mapping_from_instances mapping instances axis
      minimize_glyphs_diffs cp_only = mapping :=
  update_mapping_unset mapping instances axis minimize_glyphs_diffs cp_only h

/-- C10, witness: a concrete exporting, non-variable instance with a set
design location but unset user location leaves the mapping untouched. -/
theorem C10_witness :
    update_mapping_from_instances [(100, some 100)]
      [{ name := "Narrow", isVariable := false, exports := true,
         internalAxesValues := [("a01", 70)], externalAxesValues := [],
         customParameters := [] }]
      { axisId := "a01", axisTag := "wght", name := "Weight" } false false
      = [(100, some 100)] :=
  C10_theorem [(100, some 100)]
    [{ name := "Narrow", isVariable := false, exports := true,
       internalAxesValues := [("a01", 70)], externalAxesValues := [],
       customParameters := [] }]
    { axisId := "a01", axisTag := "wght", name := "Weight" } false false
    (by decide)

/-- C5: with `cp_only = true` (as passed by `to_designspace_axes` in the
inferred-mapping branch), instances lacking an `"Axis Location"` custom
parameter contribute nothing: their external axis values, populated by
`axisLocationToAxesValue` during `post_read` from the empty initial dict,
remain empty, so each lookup yields `None` and the mapping is unchanged. -/
theorem C5_theorem (mapping : List (Rat × Option Rat)) (axes : List GSAxis)
    (instances : List GSInstance) (axis : GSAxis) (minimize_glyphs_diffs : Bool)
    (h : ∀ inst ∈ instances,
        lookupCP inst.customParameters "Axis Location" = none ∧
        inst.externalAxesValues = axisLocationToAxesValue axes inst.customParameters []) :
    update_mapping_from_instances mapping instances axis
      minimize_glyphs_diffs true = mapping := by
  apply update_mapping_unset
  intro inst hm
  rcases h inst hm with ⟨hcp, hext⟩
  rw [hext]
  unfold axisLocationToAxesValue
  rw [hcp]
  rfl

/-- C5, witness: a concrete instance with custom parameters but no
`"Axis Location"` entry contributes nothing under `cp_only = true`. -/
theorem C5_witness :
    update_mapping_from_instances [(400, some 100)]
      [{ name := "Book", isVariable := false, exports := true,
         internalAxesValues := [("a01", 88)],
         externalAxesValues := axisLocationToAxesValue
           [{ axisId := "a01", axisTag := "wght", name := "Weight" }]
           [("weightClass", CPValue.num 450)] [],
         customParameters := [("weightClass", CPValue.num 450)] }]
      { axisId := "a01", axisTag := "wght", name := "Weight" } false true
      = [(400, some 100)] :=
  C5_theorem [(400, some 100)]
    [{ axisId := "a01", axisTag := "wght", name := "Weight" }]
    [{ name := "Book", isVariable := false, exports := true,
       internalAxesValues := [("a01", 88)],
       externalAxesValues := axisLocationToAxesValue
         [{ axisId := "a01", axisTag := "wght", name := "Weight" }]
         [("weightClass", CPValue.num 450)] [],
       customParameters := [("weightClass", CPValue.num 450)] }]
    { axisId := "a01", axisTag := "wght", name := "Weight" } false
    (by intro inst hm
        rcases List.mem_cons.mp hm with hb | hb
        · rw [hb]
          exact ⟨by decide, rfl⟩
        · cases hb)

/-- Folding `min` from a start below the start of a `max` fold stays
below it. -/
lemma foldl_min_le_foldl_max :
    ∀ (ps : List (Rat × Option Rat)) (x y : Rat), x ≤ y →
      ps.foldl (fun acc q => min acc q.1) x ≤ ps.foldl (fun acc q => max acc q.1) y := by
  intro ps
  induction ps with
  | nil => intro x y h; exact h
  | cons q qs ih =>
    intro x y h
    rw [List.foldl_cons, List.foldl_cons]
    exact ih (min x q.1) (max y q.1)
      ((min_le_left x q.1).trans (h.trans (le_max_left y q.1)))

/-- The least key of a nonempty Python dict is at most its greatest key. -/
lemma dictMin_le_dictMax (l : List (Rat × Option Rat)) (a b : Rat) :
    dictMin l = some a → dictMax l = some b → a ≤ b := by
  cases l with
  | nil => intro h; cases h
  | cons p ps =>
    intro ha hb
    have ha2 := Option.some.inj ha
    have hb2 := Option.some.inj hb
    rw [← ha2, ← hb2]
    exact foldl_min_le_foldl_max ps p.1 p.1 (le_refl p.1)

/-- Any descriptor emitted by `finishAxis` has its default clamped between
its minimum and maximum. -/
lemma buildDescriptor_bounds (axis : GSAxis)
    (mapOpt : Option (List (Rat × Option Rat))) (a b c : Option Rat)
    (d : AxisDescriptor) (h : buildDescriptor axis mapOpt a b c = .emitted d)
    (hab : ∀ x y, a = some x → b = some y → x ≤ y) :
    d.minimum ≤ d.default ∧ d.default ≤ d.maximum := by
  cases a with
  | none => cases b <;> cases c <;> exact AxisOutcome.noConfusion h
  | some mn =>
    cases b with
    | none => cases c <;> exact AxisOutcome.noConfusion h
    | some mx =>
      cases c with
      | none => exact AxisOutcome.noConfusion h
      | some r =>
        cases h
        have hle : mn ≤ mx := hab mn mx rfl rfl
        constructor
        · show mn ≤ min mx (max mn r)
          exact le_min hle (le_max_left mn r)
        · show min mx (max mn r) ≤ mx
          exact min_le_left mx (max mn r)

lemma finishAxis_bounds (axis : GSAxis) (vms : List (List (String × Rat)))
    (mapping0 : List (Rat × Option Rat)) (rul : Option Rat) (d : AxisDescriptor)
    (h : finishAxis axis vms mapping0 rul = .emitted d) :
    d.minimum ≤ d.default ∧ d.default ≤ d.maximum := by
  simp only [finishAxis] at h
  exact buildDescriptor_bounds _ _ _ _ _ _ h
    (fun x y hx hy => dictMin_le_dictMax _ x y hx hy)

/-- Any descriptor emitted by the per-axis body has its default clamped
between its minimum and maximum. -/
lemma processAxis_bounds (font : GSFont) (md : Bool) (r : GSFontMaster)
    (cm : Option (List (String × List (Rat × Rat))))
    (vms : List (List (String × Rat))) (axis : GSAxis) (d : AxisDescriptor)
    (h : processAxis font md r cm vms axis = .emitted d) :
    d.minimum ≤ d.default ∧ d.default ≤ d.maximum := by
  simp only [processAxis] at h
  split at h
  · split at h
    · cases h
    · split at h
      · cases h
      · split at h
        · cases h
        · exact finishAxis_bounds _ _ _ _ _ h
  · exact finishAxis_bounds _ _ _ _ _ h

/-- Every descriptor collected over the axis list was emitted by the
per-axis body for one of the axes. -/
lemma collectAxes_mem (font : GSFont) (md : Bool) (r : GSFontMaster)
    (cm : Option (List (String × List (Rat × Rat))))
    (vms : List (List (String × Rat))) :
    ∀ (axes : List GSAxis) (l : List AxisDescriptor),
      collectAxes font md r cm vms axes = some l →
      ∀ d ∈ l, ∃ a ∈ axes, processAxis font md r cm vms a = .emitted d := by
  intro axes
  induction axes with
  | nil =>
    intro l h d hd
    cases h
    cases hd
  | cons a rest ih =>
    intro l h d hd
    simp only [collectAxes] at h
    split at h
    · cases h
    · rcases ih l h d hd with ⟨a2, ha2, he2⟩
      exact ⟨a2, List.mem_cons_of_mem a ha2, he2⟩
    · rename_i d0 hd0
      rcases Option.map_eq_some'.mp h with ⟨l2, hl2, hl2e⟩
      rw [← hl2e] at hd
      rcases List.mem_cons.mp hd with hb | hm
      · exact ⟨a, List.mem_cons_self a rest, by rw [← hb] at hd0; exact hd0⟩
      · rcases ih l2 hl2 d hm with ⟨a2, ha2, he2⟩
        exact ⟨a2, List.mem_cons_of_mem a ha2, he2⟩

/-- The regular-master resolver only fails on a masterless font. -/
lemma get_regular_master_isSome (font : GSFont) (hm : font.masters ≠ []) :
    (get_regular_master font).isSome := by
  unfold get_regular_master
  cases hms : font.masters with
  | nil => exact absurd hms hm
  | cons m0 rest => rfl

/-- C1: for every font with at least one master, every axis descriptor
emitted by `to_designspace_axes` satisfies `minimum ≤ default ≤ maximum`:
the minimum and maximum are the extreme user-location keys of the mapping
and the default is the regular user location clamped into that range (the
fallback Weight axis satisfies the bounds trivially). -/
theorem C1_theorem (font : GSFont) (md : Bool) (ds : List AxisDescriptor)
    (d : AxisDescriptor) (hm : font.masters ≠ [])
    (hds : to_designspace_axes font md = some ds) (hd : d ∈ ds) :
    d.minimum ≤ d.default ∧ d.default ≤ d.maximum := by
  unfold to_designspace_axes at hds
  split at hds
  · rename_i hnone
    exact absurd (Option.isSome_iff_exists.mp (get_regular_master_isSome font hm))
      (by rw [hnone]; rintro ⟨x, hx⟩; cases hx)
  · rename_i r hr
    split at hds
    · cases hds
    · rename_i l hl
      cases hds
      by_cases hemp : l.isEmpty
      · rw [if_pos hemp] at hd
        rcases List.mem_cons.mp hd with hb | hx
        · rw [hb]
          exact ⟨le_refl 0, le_refl 0⟩
        · cases hx
      · rw [if_neg hemp] at hd
        rcases collectAxes_mem font md r _ _ font.axes l hl d hd with ⟨a, _, he⟩
        exact processAxis_bounds font md r _ _ a d he

section ConcreteEvaluation3

attribute [local semireducible] Rat.add Rat.sub Rat.mul Rat.inv

set_option maxRecDepth 8000 in
/-- C1, witness: the spec §8 scenario — masters Light (design 55) and Bold
(design 190) on a single weight axis, no user locations — yields one
descriptor with `55 ≤ 55 ≤ 190`. -/
theorem C1_witness :
    ({ tag := "wght", name := "Weight", minimum := 55, default := 55,
       maximum := 190, map := none } : AxisDescriptor).minimum ≤
      ({ tag := "wght", name := "Weight", minimum := 55, default := 55,
         maximum := 190, map := none } : AxisDescriptor).default ∧
    ({ tag := "wght", name := "Weight", minimum := 55, default := 55,
       maximum := 190, map := none } : AxisDescriptor).default ≤
      ({ tag := "wght", name := "Weight", minimum := 55, default := 55,
         maximum := 190, map := none } : AxisDescriptor).maximum :=
  C1_theorem
    { masters := [{ id := "m1", name := "Light",
                    internalAxesValues := [("a01", 55)], externalAxesValues := [] },
                  { id := "m2", name := "Bold",
                    internalAxesValues := [("a01", 190)], externalAxesValues := [] }],
      instances := [], axes := [{ axisId := "a01", axisTag := "wght", name := "Weight" }],
      customParameters := [] }
    false
    [{ tag := "wght", name := "Weight", minimum := 55, default := 55,
       maximum := 190, map := none }]
    { tag := "wght", name := "Weight", minimum := 55, default := 55,
      maximum := 190, map := none }
    (by decide) (by decide) (by decide)

end ConcreteEvaluation3

/-- The skip condition of the per-axis body: a truthy `"Axis Mappings"`
parameter that does not define this axis's tag. -/
def axisSkippedB (font : GSFont) (axis : GSAxis) : Bool :=
  match getTagMap (lookupCP font.customParameters "Axis Mappings") with
  | some cm => !cm.isEmpty && (lookup cm axis.axisTag).isNone
  | none => false

/-- An axis absent from a truthy `"Axis Mappings"` parameter is skipped. -/
lemma processAxis_skipped (font : GSFont) (md : Bool) (r : GSFontMaster)
    (m : List (String × List (Rat × Rat))) (vms : List (List (String × Rat)))
    (axis : GSAxis) (h1 : m.isEmpty = false) (h2 : lookup m axis.axisTag = none) :
    processAxis font md r (some m) vms axis = .skipped := by
  simp [processAxis, h1, h2]

/-- When every axis is skipped, the collection is empty (and no exception
occurs). -/
lemma collectAxes_all_skipped (font : GSFont) (md : Bool) (r : GSFontMaster)
    (cm : Option (List (String × List (Rat × Rat))))
    (vms : List (List (String × Rat))) :
    ∀ axes : List GSAxis,
      (∀ a ∈ axes, processAxis font md r cm vms a = .skipped) →
      collectAxes font md r cm vms axes = some [] := by
  intro axes
  induction axes with
  | nil => intro _; rfl
  | cons a rest ih =>
    intro h
    simp only [collectAxes]
    rw [h a (List.mem_cons_self a rest)]
    exact ih (fun x hx => h x (List.mem_cons_of_mem a hx))

/-- C4: for every font with at least one master, the emitted axis list is
never empty, and when the font declares no axes — or every declared axis
is skipped for lack of `"Axis Mappings"` data — exactly the one synthetic
Weight axis `{wght, 0, 0, 0}` is emitted. -/
theorem C4_theorem (font : GSFont) (md : Bool) (ds : List AxisDescriptor)
    (hm : font.masters ≠ [])
    (hds : to_designspace_axes font md = some ds) :
    ds ≠ [] ∧
    ((font.axes = [] ∨ ∀ a ∈ font.axes, axisSkippedB font a = true) →
      ds = [fallbackWeightAxis]) := by
  unfold to_designspace_axes at hds
  split at hds
  · rename_i hnone
    exact absurd (Option.isSome_iff_exists.mp (get_regular_master_isSome font hm))
      (by rw [hnone]; rintro ⟨x, hx⟩; cases hx)
  · rename_i r hr
    split at hds
    · cases hds
    · rename_i l hl
      cases hds
      constructor
      · by_cases hemp : l.isEmpty
        · rw [if_pos hemp]
          exact List.cons_ne_nil _ _
        · rw [if_neg hemp]
          intro hcon
          exact hemp (by rw [hcon]; rfl)
      · intro hcase
        have hall : collectAxes font md r
            (getTagMap (lookupCP font.customParameters "Axis Mappings"))
            (virtualMastersOf font) font.axes = some [] := by
          rcases hcase with hax | hskip
          · rw [hax]; rfl
          · apply collectAxes_all_skipped
            intro a ha
            have hskipa := hskip a ha
            unfold axisSkippedB at hskipa
            cases hcm : getTagMap (lookupCP font.customParameters "Axis Mappings") with
            | none =>
              rw [hcm] at hskipa
              cases hskipa
            | some m =>
              rw [hcm] at hskipa
              rw [Bool.and_eq_true] at hskipa
              have hand := hskipa
              have h1 : m.isEmpty = false := by
                cases hmm : m.isEmpty
                · rfl
                · rw [hmm] at hand
                  cases hand.1
              have h2 : lookup m a.axisTag = none :=
                Option.isNone_iff_eq_none.mp hand.2
              exact processAxis_skipped font md r m _ a h1 h2
        have hle : l = [] := by
          rw [hall] at hl
          exact (Option.some.inj hl).symm
        rw [hle]
        rfl

/-- C4, witness: a one-master font declaring zero axes yields exactly the
synthetic Weight axis with minimum, default and maximum all 0. -/
theorem C4_witness :
    ([fallbackWeightAxis] : List AxisDescriptor) ≠ [] ∧
    ((({ masters := [{ id := "m1", name := "Regular",
                       internalAxesValues := [], externalAxesValues := [] }],
         instances := [], axes := [], customParameters := [] } : GSFont).axes = [] ∨
      ∀ a ∈ ({ masters := [{ id := "m1", name := "Regular",
                             internalAxesValues := [], externalAxesValues := [] }],
               instances := [], axes := [], customParameters := [] } : GSFont).axes,
        axisSkippedB
          { masters := [{ id := "m1", name := "Regular",
                          internalAxesValues := [], externalAxesValues := [] }],
            instances := [], axes := [], customParameters := [] } a = true) →
      ([fallbackWeightAxis] : List AxisDescriptor) = [fallbackWeightAxis]) :=
  C4_theorem
    { masters := [{ id := "m1", name := "Regular",
                    internalAxesValues := [], externalAxesValues := [] }],
      instances := [], axes := [], customParameters := [] }
    false [fallbackWeightAxis] (by decide) (by decide)

/-- A fold preserves any invariant its step preserves. -/
lemma foldl_preserve {γ δ : Type} (P : δ → Prop) (step : δ → γ → δ)
    (hstep : ∀ acc x, P acc → P (step acc x)) :
    ∀ (items : List γ) (acc : δ), P acc → P (items.foldl step acc) := by
  intro items
  induction items with
  | nil => intro acc h; exact h
  | cons x xs ih =>
    intro acc h
    exact ih (step acc x) (hstep acc x h)

/-- Inserting into a Python dict either leaves the key list unchanged (the
key was present) or appends the new key. -/
lemma keys_insertAssoc {α β : Type} [DecidableEq α] (k : α) (v : β) :
    ∀ l : List (α × β),
      keys (insertAssoc l k v) = if k ∈ keys l then keys l else keys l ++ [k] := by
  intro l
  induction l with
  | nil => simp [insertAssoc, keys]
  | cons p rest ih =>
    obtain ⟨a, b⟩ := p
    by_cases hk : a = k
    · subst hk
      simp [insertAssoc, keys]
    · have hk2 : ¬ (k = a) := fun he => hk he.symm
      simp only [keys] at ih
      simp only [insertAssoc, if_neg hk, keys, List.map_cons, ih]
      by_cases hmem : k ∈ rest.map Prod.fst
      · simp [hmem, hk2]
      · simp [hmem, hk2]

/-- Inserting into a Python dict keeps the keys duplicate-free. -/
lemma keys_nodup_insertAssoc {α β : Type} [DecidableEq α] (k : α) (v : β)
    (l : List (α × β)) (h : (keys l).Nodup) : (keys (insertAssoc l k v)).Nodup := by
  rw [keys_insertAssoc]
  by_cases hmem : k ∈ keys l
  · rw [if_pos hmem]
    exact h
  · rw [if_neg hmem]
    simp [List.nodup_append, h, hmem]

/-- The mapping inferred from the masters has duplicate-free user keys. -/
lemma masters_fold_keys_nodup (axis : GSAxis) (masters : List GSFontMaster) :
    (keys (masters.foldl
      (fun m master =>
        let designLoc := (lookup master.internalAxesValues axis.axisId).getD 0
        let userLoc := (lookup master.externalAxesValues axis.axisId).getD designLoc
        insertAssoc m userLoc (some designLoc))
      [])).Nodup := by
  refine foldl_preserve (fun l => (keys l).Nodup) _ ?_ masters [] (by simp [keys])
  intro acc master hacc
  exact keys_nodup_insertAssoc _ _ _ hacc

/-- Folding in the instances keeps the user keys duplicate-free. -/
lemma update_mapping_keys_nodup (instances : List GSInstance) (axis : GSAxis)
    (md cp : Bool) (mapping : List (Rat × Option Rat))
    (h : (keys mapping).Nodup) :
    (keys (update_mapping_from_instances mapping instances axis md cp)).Nodup := by
  unfold update_mapping_from_instances
  refine foldl_preserve (fun l => (keys l).Nodup) _ ?_ instances mapping h
  intro acc inst hacc
  by_cases hv : inst.isVariable = true
  · simp only [if_pos hv]
    exact hacc
  · simp only [if_neg hv]
    by_cases he : (inst.exports || md) = true
    · simp only [if_pos he]
      cases lookup inst.externalAxesValues axis.axisId with
      | none => exact hacc
      | some u => exact keys_nodup_insertAssoc _ _ _ hacc
    · simp only [if_neg he]
      exact hacc

/-- A Python dict built from a pair list has duplicate-free keys. -/
lemma dictOfList_keys_nodup {α β : Type} [DecidableEq α] (l : List (α × β)) :
    (keys (dictOfList l)).Nodup := by
  unfold dictOfList
  refine foldl_preserve (fun d => (keys d).Nodup) _ ?_ l [] (by simp [keys])
  intro acc p hacc
  exact keys_nodup_insertAssoc _ _ _ hacc

/-- Sorted insertion permutes to consing. -/
lemma insertSorted_perm (p : Rat × Option Rat) :
    ∀ l : List (Rat × Option Rat), (insertSorted p l).Perm (p :: l) := by
  intro l
  induction l with
  | nil => exact List.Perm.refl _
  | cons q qs ih =>
    show (if p.1 ≤ q.1 then p :: q :: qs else q :: insertSorted p qs).Perm _
    by_cases hle : p.1 ≤ q.1
    · rw [if_pos hle]
    · rw [if_neg hle]
      exact (List.Perm.cons q ih).trans (List.Perm.swap p q qs)

/-- `sortByKey` permutes the dict entries. -/
lemma sortByKey_perm :
    ∀ l : List (Rat × Option Rat), (sortByKey l).Perm l := by
  intro l
  induction l with
  | nil => exact List.Perm.refl _
  | cons p ps ih =>
    exact (insertSorted_perm p (sortByKey ps)).trans (List.Perm.cons p ih)

/-- Sorted insertion preserves key-sortedness. -/
lemma insertSorted_sorted (p : Rat × Option Rat) :
    ∀ l : List (Rat × Option Rat),
      List.Pairwise (fun a b : Rat × Option Rat => a.1 ≤ b.1) l →
      List.Pairwise (fun a b : Rat × Option Rat => a.1 ≤ b.1) (insertSorted p l) := by
  intro l
  induction l with
  | nil => intro _; simp [insertSorted]
  | cons q qs ih =>
    intro hs
    rcases List.pairwise_cons.mp hs with ⟨hq, hqs⟩
    show List.Pairwise _ (if p.1 ≤ q.1 then p :: q :: qs else q :: insertSorted p qs)
    by_cases hle : p.1 ≤ q.1
    · rw [if_pos hle]
      refine List.pairwise_cons.mpr ⟨?_, hs⟩
      intro x hx
      rcases List.mem_cons.mp hx with hb | hm
      · rw [hb]; exact hle
      · exact hle.trans (hq x hm)
    · rw [if_neg hle]
      refine List.pairwise_cons.mpr ⟨?_, ih hqs⟩
      intro x hx
      have hx2 : x ∈ p :: qs := (insertSorted_perm p qs).mem_iff.mp hx
      rcases List.mem_cons.mp hx2 with hb | hm
      · rw [hb]; exact (not_le.mp hle).le
      · exact hq x hm

/-- `sortByKey` sorts the entries by key, ascending. -/
lemma sortByKey_sorted :
    ∀ l : List (Rat × Option Rat),
      List.Pairwise (fun a b : Rat × Option Rat => a.1 ≤ b.1) (sortByKey l) := by
  intro l
  induction l with
  | nil => exact List.Pairwise.nil
  | cons p ps ih => exact insertSorted_sorted p (sortByKey ps) ih

/-- Key-sortedness plus duplicate-free keys gives strictly increasing
keys. -/
lemma pairwise_lt_of_le_nodup :
    ∀ m : List (Rat × Option Rat),
      List.Pairwise (fun a b : Rat × Option Rat => a.1 ≤ b.1) m →
      (keys m).Nodup →
      List.Pairwise (fun a b : Rat × Option Rat => a.1 < b.1) m := by
  intro m
  induction m with
  | nil => intro _ _; exact List.Pairwise.nil
  | cons p rest ih =>
    intro hs hn
    rcases List.pairwise_cons.mp hs with ⟨hp, hrest⟩
    simp only [keys, List.map_cons, List.nodup_cons] at hn
    refine List.pairwise_cons.mpr ⟨?_, ih hrest (by simpa [keys] using hn.2)⟩
    intro q hq
    refine lt_of_le_of_ne (hp q hq) (fun he => hn.1 ?_)
    rw [he]
    exact List.mem_map_of_mem Prod.fst hq

/-- The emitted descriptor carries exactly the map argument. -/
lemma buildDescriptor_map (axis : GSAxis)
    (mapOpt : Option (List (Rat × Option Rat))) (a b c : Option Rat)
    (d : AxisDescriptor) (h : buildDescriptor axis mapOpt a b c = .emitted d) :
    d.map = mapOpt := by
  cases a with
  | none => cases b <;> cases c <;> exact AxisOutcome.noConfusion h
  | some mn =>
    cases b with
    | none => cases c <;> exact AxisOutcome.noConfusion h
    | some mx =>
      cases c with
      | none => exact AxisOutcome.noConfusion h
      | some r =>
        cases h
        rfl

/-- The map attached by `finishAxis` is the sorted original mapping, and
only when the mapping is not an identity. -/
lemma finishAxis_map (axis : GSAxis) (vms : List (List (String × Rat)))
    (mapping0 : List (Rat × Option Rat)) (rul : Option Rat) (d : AxisDescriptor)
    (h : finishAxis axis vms mapping0 rul = .emitted d) :
    d.map = if is_identity mapping0 = true then none
            else some (sortByKey mapping0) := by
  simp only [finishAxis] at h
  have hb := buildDescriptor_map _ _ _ _ _ _ h
  by_cases hid : is_identity mapping0 = true
  · rw [hb, if_pos hid, if_pos hid]
  · rw [hb, if_neg hid, if_neg hid, if_neg hid]

/-- A present map coming out of `finishAxis` has strictly increasing user
keys, provided the incoming mapping had duplicate-free keys. -/
lemma finishAxis_map_pairwise (axis : GSAxis) (vms : List (List (String × Rat)))
    (mapping0 : List (Rat × Option Rat)) (rul : Option Rat) (d : AxisDescriptor)
    (m : List (Rat × Option Rat)) (h : finishAxis axis vms mapping0 rul = .emitted d)
    (hm : d.map = some m) (hn : (keys mapping0).Nodup) :
    List.Pairwise (fun p q : Rat × Option Rat => p.1 < q.1) m := by
  have hmap := finishAxis_map axis vms mapping0 rul d h
  by_cases hid : is_identity mapping0 = true
  · rw [hmap, if_pos hid] at hm
    cases hm
  · rw [hmap, if_neg hid] at hm
    have hmm : m = sortByKey mapping0 := (Option.some.inj hm).symm
    rw [hmm]
    refine pairwise_lt_of_le_nodup _ (sortByKey_sorted mapping0) ?_
    have hperm : (keys (sortByKey mapping0)).Perm (keys mapping0) :=
      (sortByKey_perm mapping0).map Prod.fst
    exact (List.Perm.nodup_iff hperm).mpr hn

/-- A present map on any emitted descriptor has strictly increasing user
keys: both branches build the mapping as a Python dict, whose keys are
unique, and sort it before attaching. -/
lemma processAxis_map_pairwise (font : GSFont) (md : Bool) (r : GSFontMaster)
    (cm : Option (List (String × List (Rat × Rat))))
    (vms : List (List (String × Rat))) (axis : GSAxis) (d : AxisDescriptor)
    (m : List (Rat × Option Rat))
    (h : processAxis font md r cm vms axis = .emitted d) (hm : d.map = some m) :
    List.Pairwise (fun p q : Rat × Option Rat => p.1 < q.1) m := by
  simp only [processAxis] at h
  split at h
  · split at h
    · cases h
    · split at h
      · cases h
      · split at h
        · cases h
        · exact finishAxis_map_pairwise _ _ _ _ _ _ h hm (dictOfList_keys_nodup _)
  · exact finishAxis_map_pairwise _ _ _ _ _ _ h hm
      (update_mapping_keys_nodup _ _ _ _ _ (masters_fold_keys_nodup axis font.masters))

/-- C2 (amended): every map present on an emitted axis descriptor has
unique user-location keys and is sorted strictly ascending in user value;
monotonicity of the design values is *not* guaranteed (see the
counterexample). -/
theorem C2_theorem (font : GSFont) (md : Bool) (ds : List AxisDescriptor)
    (d : AxisDescriptor) (m : List (Rat × Option Rat))
    (hds : to_designspace_axes font md = some ds) (hd : d ∈ ds)
    (hm : d.map = some m) :
    List.Pairwise (fun p q : Rat × Option Rat => p.1 < q.1) m := by
  unfold to_designspace_axes at hds
  split at hds
  · cases hds
    cases hd
  · rename_i r hr
    split at hds
    · cases hds
    · rename_i l hl
      cases hds
      by_cases hemp : l.isEmpty
      · rw [if_pos hemp] at hd
        rcases List.mem_cons.mp hd with hb | hx
        · rw [hb] at hm
          cases hm
        · cases hx
      · rw [if_neg hemp] at hd
        rcases collectAxes_mem font md r _ _ font.axes l hl d hd with ⟨a, _, he⟩
        exact processAxis_map_pairwise font md r _ _ a d m he hm

/-- Plain formalization of claim C2's design-monotonicity: along the
sorted map, adjacent design values never decrease (a `None` design value
constrains nothing). -/
def designsNonDecreasingB : List (Rat × Option Rat) → Bool
  | p :: q :: rest =>
    (match p.2, q.2 with
     | some a, some b => decide (a ≤ b)
     | _, _ => true) && designsNonDecreasingB (q :: rest)
  | _ => true

section ConcreteEvaluation4

attribute [local semireducible] Rat.add Rat.sub Rat.mul Rat.inv

set_option maxRecDepth 8000 in
/-- C2, counterexample: two masters with crossed user/design locations
(user 100 ↦ design 200 and user 200 ↦ design 100) produce an emitted,
non-identity map whose design values strictly decrease as the user value
increases — the claimed "no inversions" monotonicity is false on the
code, which never checks it. -/
theorem C2_counterexample :
    to_designspace_axes
      { masters := [{ id := "m1", name := "A",
                      internalAxesValues := [("a01", 200)],
                      externalAxesValues := [("a01", 100)] },
                    { id := "m2", name := "B",
                      internalAxesValues := [("a01", 100)],
                      externalAxesValues := [("a01", 200)] }],
        instances := [], axes := [{ axisId := "a01", axisTag := "wght", name := "Weight" }],
        customParameters := [] } false
      = some [{ tag := "wght", name := "Weight", minimum := 100, default := 100,
                maximum := 200,
                map := some [(100, some 200), (200, some 100)] }] ∧
    designsNonDecreasingB [(100, some 200), (200, some 100)] = false := by
  constructor
  · decide
  · decide

set_option maxRecDepth 8000 in
/-- C2, witness: the amended theorem applied to the counterexample font —
its emitted map, while not design-monotonic, does have strictly
increasing user keys. -/
theorem C2_witness :
    List.Pairwise (fun p q : Rat × Option Rat => p.1 < q.1)
      [(100, some 200), (200, some 100)] :=
  C2_theorem
    { masters := [{ id := "m1", name := "A",
                    internalAxesValues := [("a01", 200)],
                    externalAxesValues := [("a01", 100)] },
                  { id := "m2", name := "B",
                    internalAxesValues := [("a01", 100)],
                    externalAxesValues := [("a01", 200)] }],
      instances := [], axes := [{ axisId := "a01", axisTag := "wght", name := "Weight" }],
      customParameters := [] }
    false
    [{ tag := "wght", name := "Weight", minimum := 100, default := 100,
       maximum := 200, map := some [(100, some 200), (200, some 100)] }]
    { tag := "wght", name := "Weight", minimum := 100, default := 100,
      maximum := 200, map := some [(100, some 200), (200, some 100)] }
    [(100, some 200), (200, some 100)]
    (by decide) (by decide) (by decide)

end ConcreteEvaluation4

/-- One auditor step only appends: up to two fresh `"Virtual Master"`
parameters, located at the declared minimum or maximum of this axis's
designspace descriptor. -/
lemma checkAxisStep_suffix (font : GSFont) (ds : List AxisDescriptor)
    (params : List (String × CPValue)) (axis : GSAxis)
    (out : List (String × CPValue))
    (h : checkAxisStep font ds params axis = some out) :
    ∃ suffix, out = params ++ suffix ∧
      ∀ p ∈ suffix, ∃ dd, getAxisByTag ds axis.axisTag = some dd ∧
        (p = ("Virtual Master", CPValue.locList [(axis.name, dd.minimum)]) ∨
         p = ("Virtual Master", CPValue.locList [(axis.name, dd.maximum)])) := by
  simp only [checkAxisStep] at h
  split at h
  · cases h
  · rename_i dd hdd
    have h2 := Option.some.inj h
    split at h2
    · split at h2
      · refine ⟨[("Virtual Master", CPValue.locList [(axis.name, dd.minimum)]),
                 ("Virtual Master", CPValue.locList [(axis.name, dd.maximum)])], ?_, ?_⟩
        · rw [← h2, List.append_assoc]
          rfl
        · intro p hp
          rcases List.mem_cons.mp hp with hb | hp2
          · exact ⟨dd, hdd, Or.inl hb⟩
          · rcases List.mem_cons.mp hp2 with hb | hp3
            · exact ⟨dd, hdd, Or.inr hb⟩
            · cases hp3
      · refine ⟨[("Virtual Master", CPValue.locList [(axis.name, dd.maximum)])], ?_, ?_⟩
        · rw [← h2]
        · intro p hp
          rcases List.mem_cons.mp hp with hb | hp2
          · exact ⟨dd, hdd, Or.inr hb⟩
          · cases hp2
    · split at h2
      · refine ⟨[("Virtual Master", CPValue.locList [(axis.name, dd.minimum)])], ?_, ?_⟩
        · rw [← h2]
        · intro p hp
          rcases List.mem_cons.mp hp with hb | hp2
          · exact ⟨dd, hdd, Or.inl hb⟩
          · cases hp2
      · refine ⟨[], ?_, ?_⟩
        · rw [← h2, List.append_nil]
        · intro p hp
          cases hp

/-- The auditor fold only appends virtual-master parameters at declared
extremes of the processed axes. -/
lemma check_fold_suffix (font : GSFont) (ds : List AxisDescriptor) :
    ∀ (axes : List GSAxis) (params out : List (String × CPValue)),
      axes.foldlM (checkAxisStep font ds) params = some out →
      ∃ suffix, out = params ++ suffix ∧
        ∀ p ∈ suffix, ∃ a, a ∈ axes ∧
          ∃ dd, getAxisByTag ds a.axisTag = some dd ∧
            (p = ("Virtual Master", CPValue.locList [(a.name, dd.minimum)]) ∨
             p = ("Virtual Master", CPValue.locList [(a.name, dd.maximum)])) := by
  intro axes
  induction axes with
  | nil =>
    intro params out h
    have hpo : params = out := by simpa using h
    refine ⟨[], by rw [← hpo, List.append_nil], ?_⟩
    intro p hp
    cases hp
  | cons a rest ih =>
    intro params out h
    rw [List.foldlM_cons] at h
    cases hcs : checkAxisStep font ds params a with
    | none =>
      rw [hcs] at h
      exact Option.noConfusion h
    | some p2 =>
      rw [hcs] at h
      rcases checkAxisStep_suffix font ds params a p2 hcs with ⟨s1, hs1, hp1⟩
      rcases ih p2 out h with ⟨s2, hs2, hp2⟩
      refine ⟨s1 ++ s2, ?_, ?_⟩
      · rw [hs2, hs1, List.append_assoc]
      · intro p hp
        rcases List.mem_append.mp hp with hm | hm
        · rcases hp1 p hm with ⟨dd, hdd, hor⟩
          exact ⟨a, List.mem_cons_self a rest, dd, hdd, hor⟩
        · rcases hp2 p hm with ⟨a2, ha2, rest2⟩
          exact ⟨a2, List.mem_cons_of_mem a ha2, rest2⟩

/-- C6 (amended): `check_axis_ranges` is append-only — its output is the
font's original custom-parameter list followed by fresh `"Virtual
Master"` parameters, each placed at the declared minimum or maximum of a
font axis's designspace descriptor; no existing parameter is removed or
modified.  The observed-range scan, however, prefers the user location
only when it is truthy (set and nonzero), not merely set (see the
counterexample). -/
theorem C6_theorem (font : GSFont) (ds : List AxisDescriptor)
    (out : List (String × CPValue))
    (h : check_axis_ranges font ds = some out) :
    ∃ suffix, out = font.customParameters ++ suffix ∧
      ∀ p ∈ suffix, ∃ a, a ∈ font.axes ∧
        ∃ dd, getAxisByTag ds a.axisTag = some dd ∧
          (p = ("Virtual Master", CPValue.locList [(a.name, dd.minimum)]) ∨
           p = ("Virtual Master", CPValue.locList [(a.name, dd.maximum)])) :=
  check_fold_suffix font ds font.axes font.customParameters out h

section ConcreteEvaluation5

attribute [local semireducible] Rat.add Rat.sub Rat.mul Rat.inv

set_option maxRecDepth 8000 in
/-- C6, counterexample: a master whose user location is *set to 0* with
design location 100.  The code's Python-truthy `userLoc or designLoc or 0`
falls through to the design location, observes `[100, 100]`, and appends
a virtual master at the declared minimum 50; under the claim's
"user location when it is set" reading the observed range is `[0, 0]` and
the appended parameter sits at the declared maximum 100 instead. -/
theorem C6_counterexample :
    check_axis_ranges
      { masters := [{ id := "m1", name := "R",
                      internalAxesValues := [("a01", 100)],
                      externalAxesValues := [("a01", 0)] }],
        instances := [], axes := [{ axisId := "a01", axisTag := "wght", name := "Weight" }],
        customParameters := [] }
      [{ tag := "wght", name := "Weight", minimum := 50, default := 100,
         maximum := 100, map := none }]
      = some [("Virtual Master", CPValue.locList [("Weight", 50)])] ∧
    check_axis_ranges_spec
      { masters := [{ id := "m1", name := "R",
                      internalAxesValues := [("a01", 100)],
                      externalAxesValues := [("a01", 0)] }],
        instances := [], axes := [{ axisId := "a01", axisTag := "wght", name := "Weight" }],
        customParameters := [] }
      [{ tag := "wght", name := "Weight", minimum := 50, default := 100,
         maximum := 100, map := none }]
      = some [("Virtual Master", CPValue.locList [("Weight", 100)])] ∧
    (some [("Virtual Master", CPValue.locList [("Weight", 50)])] : Option (List (String × CPValue)))
      ≠ some [("Virtual Master", CPValue.locList [("Weight", 100)])] := by
  refine ⟨by decide, by decide, by decide⟩

set_option maxRecDepth 8000 in
/-- C6, witness: the amended theorem applied to the counterexample font —
the output is the original (empty) parameter list plus one virtual-master
parameter at the declared minimum of the weight axis. -/
theorem C6_witness :
    ∃ suffix,
      [("Virtual Master", CPValue.locList [("Weight", 50)])]
        = ({ masters := [{ id := "m1", name := "R",
                           internalAxesValues := [("a01", 100)],
                           externalAxesValues := [("a01", 0)] }],
             instances := [],
             axes := [{ axisId := "a01", axisTag := "wght", name := "Weight" }],
             customParameters := [] } : GSFont).customParameters ++ suffix ∧
      ∀ p ∈ suffix, ∃ a,
        a ∈ ({ masters := [{ id := "m1", name := "R",
                             internalAxesValues := [("a01", 100)],
                             externalAxesValues := [("a01", 0)] }],
               instances := [],
               axes := [{ axisId := "a01", axisTag := "wght", name := "Weight" }],
               customParameters := [] } : GSFont).axes ∧
        ∃ dd, getAxisByTag
            [{ tag := "wght", name := "Weight", minimum := 50, default := 100,
               maximum := 100, map := none }] a.axisTag = some dd ∧
          (p = ("Virtual Master", CPValue.locList [(a.name, dd.minimum)]) ∨
           p = ("Virtual Master", CPValue.locList [(a.name, dd.maximum)])) :=
  C6_theorem
    { masters := [{ id := "m1", name := "R",
                    internalAxesValues := [("a01", 100)],
                    externalAxesValues := [("a01", 0)] }],
      instances := [], axes := [{ axisId := "a01", axisTag := "wght", name := "Weight" }],
      customParameters := [] }
    [{ tag := "wght", name := "Weight", minimum := 50, default := 100,
       maximum := 100, map := none }]
    [("Virtual Master", CPValue.locList [("Weight", 50)])]
    (by decide)

end ConcreteEvaluation5

/-- A freshly parsed format-2 master attached to a freshly initialized
font: default metric catalog (`GSFont.__init__`), empty per-master metric
values (`GSFontMaster.__init__`), and the read-buffer, small-cap and
alignment-zone data gathered while parsing. -/
def freshReadState (a c x b d it : Option (Rat × Option Rat))
    (sch : Option Rat) (zones : Option (List GSAlignmentZone)) :
    MasterReadState :=
  { fontMetrics := defaultFontMetrics, masterMetrics := [], nextId := 5,
    rbAscender := a, rbCapHeight := c, rbXHeight := x, rbBaseline := b,
    rbDescender := d, rbItalicAngle := it, smallCapHeight := sch,
    alignmentZones := zones }

/-- The migrated state after one `post_read` of a zone-free master with no
small-cap parameter: the five standard metrics and the italic-angle metric
hold the read-buffer values. -/
def migratedState (a c x b d it : Option (Rat × Option Rat)) :
    MasterReadState :=
  { fontMetrics := defaultFontMetrics ++
      [{ id := 5, metricType := GSMetricsKeyItalicAngle, name := none, filter := none }],
    masterMetrics :=
      [(0, ⟨(a.getD (0, some 0)).1, (a.getD (0, some 0)).2⟩),
       (1, ⟨(c.getD (0, some 0)).1, (c.getD (0, some 0)).2⟩),
       (2, ⟨(x.getD (0, some 0)).1, (x.getD (0, some 0)).2⟩),
       (3, ⟨(b.getD (0, some 0)).1, (b.getD (0, some 0)).2⟩),
       (4, ⟨(d.getD (0, some 0)).1, (d.getD (0, some 0)).2⟩),
       (5, ⟨(it.getD (0, some 0)).1, (it.getD (0, some 0)).2⟩)],
    nextId := 6,
    rbAscender := a, rbCapHeight := c, rbXHeight := x, rbBaseline := b,
    rbDescender := d, rbItalicAngle := it, smallCapHeight := none,
    alignmentZones := none }

/-- The migrated state when a truthy `"smallCapHeight"` parameter `p` was
absorbed: a filtered x-height metric carries `p` with the x-height
overshoot, and the parameter is deleted. -/
def migratedStateSmallCap (a c x b d it : Option (Rat × Option Rat))
    (p : Rat) : MasterReadState :=
  { fontMetrics := defaultFontMetrics ++
      [{ id := 5, metricType := GSMetricsKeyxHeight, name := none,
         filter := some "case == 3" },
       { id := 6, metricType := GSMetricsKeyItalicAngle, name := none, filter := none }],
    masterMetrics :=
      [(0, ⟨(a.getD (0, some 0)).1, (a.getD (0, some 0)).2⟩),
       (1, ⟨(c.getD (0, some 0)).1, (c.getD (0, some 0)).2⟩),
       (2, ⟨(x.getD (0, some 0)).1, (x.getD (0, some 0)).2⟩),
       (3, ⟨(b.getD (0, some 0)).1, (b.getD (0, some 0)).2⟩),
       (4, ⟨(d.getD (0, some 0)).1, (d.getD (0, some 0)).2⟩),
       (5, ⟨p, (x.getD (0, some 0)).2⟩),
       (6, ⟨(it.getD (0, some 0)).1, (it.getD (0, some 0)).2⟩)],
    nextId := 7,
    rbAscender := a, rbCapHeight := c, rbXHeight := x, rbBaseline := b,
    rbDescender := d, rbItalicAngle := it, smallCapHeight := none,
    alignmentZones := none }

set_option maxRecDepth 10000 in
set_option maxHeartbeats 1000000 in
/-- First `post_read` of a zone-free master without a small-cap
parameter. -/
lemma postReadMetrics_fresh (a c x b d it : Option (Rat × Option Rat))
    (zones : Option (List GSAlignmentZone))
    (hz : zones = none ∨ zones = some []) :
    postReadMetrics (freshReadState a c x b d it none zones)
      = some (migratedState a c x b d it) := by
  rcases hz with rfl | rfl <;>
    simp [freshReadState, migratedState, postReadMetrics, set_metric, get_metric,
      lookup, insertAssoc, defaultFontMetrics, GSMetricsKeyAscender,
      GSMetricsKeyCapHeight, GSMetricsKeyxHeight, GSMetricsKeyBaseline,
      GSMetricsKeyDescender, GSMetricsKeyItalicAngle, GSMetricsKeyUndefined]

set_option maxRecDepth 10000 in
set_option maxHeartbeats 1000000 in
/-- Second `post_read` is the identity on the migrated zone-free state. -/
lemma postReadMetrics_migrated (a c x b d it : Option (Rat × Option Rat)) :
    postReadMetrics (migratedState a c x b d it)
      = some (migratedState a c x b d it) := by
  simp [migratedState, postReadMetrics, set_metric, get_metric,
    lookup, insertAssoc, defaultFontMetrics, GSMetricsKeyAscender,
    GSMetricsKeyCapHeight, GSMetricsKeyxHeight, GSMetricsKeyBaseline,
    GSMetricsKeyDescender, GSMetricsKeyItalicAngle, GSMetricsKeyUndefined]

set_option maxRecDepth 10000 in
set_option maxHeartbeats 1000000 in
/-- First `post_read` with a falsy (zero) small-cap parameter: the
parameter is left in place and nothing is absorbed. -/
lemma postReadMetrics_fresh_scZero (a c x b d it : Option (Rat × Option Rat))
    (zones : Option (List GSAlignmentZone))
    (hz : zones = none ∨ zones = some []) :
    postReadMetrics (freshReadState a c x b d it (some 0) zones)
      = some { migratedState a c x b d it with smallCapHeight := some 0 } := by
  rcases hz with rfl | rfl <;>
    simp [freshReadState, migratedState, postReadMetrics, set_metric, get_metric,
      lookup, insertAssoc, defaultFontMetrics, GSMetricsKeyAscender,
      GSMetricsKeyCapHeight, GSMetricsKeyxHeight, GSMetricsKeyBaseline,
      GSMetricsKeyDescender, GSMetricsKeyItalicAngle, GSMetricsKeyUndefined]

set_option maxRecDepth 10000 in
set_option maxHeartbeats 1000000 in
/-- Second `post_read` is the identity when the kept small-cap parameter
is falsy. -/
lemma postReadMetrics_migrated_scZero (a c x b d it : Option (Rat × Option Rat)) :
    postReadMetrics { migratedState a c x b d it with smallCapHeight := some 0 }
      = some { migratedState a c x b d it with smallCapHeight := some 0 } := by
  simp [migratedState, postReadMetrics, set_metric, get_metric,
    lookup, insertAssoc, defaultFontMetrics, GSMetricsKeyAscender,
    GSMetricsKeyCapHeight, GSMetricsKeyxHeight, GSMetricsKeyBaseline,
    GSMetricsKeyDescender, GSMetricsKeyItalicAngle, GSMetricsKeyUndefined]

set_option maxRecDepth 10000 in
set_option maxHeartbeats 1000000 in
/-- First `post_read` with a truthy small-cap parameter `p`. -/
lemma postReadMetrics_fresh_sc (a c x b d it : Option (Rat × Option Rat))
    (p : Rat) (hp : ¬ p = 0) (zones : Option (List GSAlignmentZone))
    (hz : zones = none ∨ zones = some []) :
    postReadMetrics (freshReadState a c x b d it (some p) zones)
      = some (migratedStateSmallCap a c x b d it p) := by
  rcases hz with rfl | rfl <;>
    simp [freshReadState, migratedStateSmallCap, postReadMetrics, set_metric,
      get_metric, lookup, insertAssoc, defaultFontMetrics, GSMetricsKeyAscender,
      GSMetricsKeyCapHeight, GSMetricsKeyxHeight, GSMetricsKeyBaseline,
      GSMetricsKeyDescender, GSMetricsKeyItalicAngle, GSMetricsKeyUndefined, hp]

set_option maxRecDepth 10000 in
set_option maxHeartbeats 1000000 in
/-- Second `post_read` is the identity on the migrated small-cap state. -/
lemma postReadMetrics_migrated_sc (a c x b d it : Option (Rat × Option Rat))
    (p : Rat) :
    postReadMetrics (migratedStateSmallCap a c x b d it p)
      = some (migratedStateSmallCap a c x b d it p) := by
  simp [migratedStateSmallCap, postReadMetrics, set_metric, get_metric,
    lookup, insertAssoc, defaultFontMetrics, GSMetricsKeyAscender,
    GSMetricsKeyCapHeight, GSMetricsKeyxHeight, GSMetricsKeyBaseline,
    GSMetricsKeyDescender, GSMetricsKeyItalicAngle, GSMetricsKeyUndefined]

/-- C3 (amended): the format-2 metric migration of `post_read` is
idempotent for masters that carry no legacy alignment zones: a second run
on the migrated state reproduces it exactly.  When zones were absorbed
into existing metrics, a second run resets those overshoots to the
read-buffer values (see the counterexample). -/
theorem C3_theorem (a c x b d it : Option (Rat × Option Rat))
    (sch : Option Rat) (zones : Option (List GSAlignmentZone))
    (hz : zones = none ∨ zones = some []) (st1 : MasterReadState)
    (h1 : postReadMetrics (freshReadState a c x b d it sch zones) = some st1) :
    postReadMetrics st1 = some st1 := by
  cases sch with
  | none =>
    rw [postReadMetrics_fresh a c x b d it zones hz] at h1
    cases h1
    exact postReadMetrics_migrated a c x b d it
  | some p =>
    by_cases hp : p = 0
    · subst hp
      rw [postReadMetrics_fresh_scZero a c x b d it zones hz] at h1
      cases h1
      exact postReadMetrics_migrated_scZero a c x b d it
    · rw [postReadMetrics_fresh_sc a c x b d it p hp zones hz] at h1
      cases h1
      exact postReadMetrics_migrated_sc a c x b d it p

section ConcreteEvaluation6

attribute [local semireducible] Rat.add Rat.sub Rat.mul Rat.inv

set_option maxRecDepth 8000 in
/-- C3, counterexample: the spec's own migration scenario — read buffer
{ascender 800, cap height 700, x-height 500, baseline 0, descender -200}
with alignment zones `[(500, 15), (0, -12)]`.  The first run absorbs the
zone overshoots into the x-height and baseline metrics; a second run
re-reads the buffered values and resets both overshoots to `None`, so the
per-metric values differ between one and two runs. -/
theorem C3_counterexample :
    (postReadMetrics
      (freshReadState (some (800, none)) (some (700, none)) (some (500, none))
        (some (0, none)) (some (-200, none)) none none
        (some [⟨500, 15⟩, ⟨0, -12⟩]))).map MasterReadState.masterMetrics
      = some [(0, ⟨800, none⟩), (1, ⟨700, none⟩), (2, ⟨500, some 15⟩),
              (3, ⟨0, some (-12)⟩), (4, ⟨-200, none⟩), (5, ⟨0, some 0⟩)] ∧
    ((postReadMetrics
      (freshReadState (some (800, none)) (some (700, none)) (some (500, none))
        (some (0, none)) (some (-200, none)) none none
        (some [⟨500, 15⟩, ⟨0, -12⟩]))).bind postReadMetrics).map
        MasterReadState.masterMetrics
      = some [(0, ⟨800, none⟩), (1, ⟨700, none⟩), (2, ⟨500, none⟩),
              (3, ⟨0, none⟩), (4, ⟨-200, none⟩), (5, ⟨0, some 0⟩)] ∧
    (some [(0, (⟨800, none⟩ : GSMetricValue)), (1, ⟨700, none⟩), (2, ⟨500, some 15⟩),
           (3, ⟨0, some (-12)⟩), (4, ⟨-200, none⟩), (5, ⟨0, some 0⟩)]
      ≠ some [(0, (⟨800, none⟩ : GSMetricValue)), (1, ⟨700, none⟩), (2, ⟨500, none⟩),
              (3, ⟨0, none⟩), (4, ⟨-200, none⟩), (5, ⟨0, some 0⟩)]) := by
  refine ⟨by decide, by decide, by decide⟩

set_option maxRecDepth 8000 in
/-- C3, witness: the amended theorem applied to a concrete zone-free
master; the second run reproduces the migrated state. -/
theorem C3_witness :
    postReadMetrics
      (migratedState (some (800, none)) (some (700, none)) (some (500, none))
        (some (0, none)) (some (-200, none)) none)
      = some (migratedState (some (800, none)) (some (700, none)) (some (500, none))
          (some (0, none)) (some (-200, none)) none) :=
  C3_theorem (some (800, none)) (some (700, none)) (some (500, none))
    (some (0, none)) (some (-200, none)) none none none (Or.inl rfl)
    (migratedState (some (800, none)) (some (700, none)) (some (500, none))
      (some (0, none)) (some (-200, none)) none)
    (by decide)

set_option maxRecDepth 8000 in
/-- C9: evaluation at the failing input.  Two legacy alignment zones
`(100, 10)` and `(300, 20)` match no existing metric (all standard
positions are farther than one unit away).  The claim demands two new
sequentially numbered metrics "zone 1" and "zone 2"; the code instead
produces exactly one undefined metric, unnamed, whose master value holds
only the last zone `(300, 20)` — `_set_metric` is called without the
computed `zoneKey`, so the second zone finds and overwrites the metric
created by the first. -/
theorem C9_theorem :
    (postReadMetrics
      (freshReadState (some (800, none)) (some (700, none)) (some (500, none))
        (some (0, none)) (some (-200, none)) none none
        (some [⟨100, 10⟩, ⟨300, 20⟩]))).map
      (fun st => (st.fontMetrics.filter (fun m => m.metricType.isNone),
                  lookup st.masterMetrics 5))
      = some ([{ id := 5, metricType := none, name := none, filter := none }],
              some ⟨300, some 20⟩) := by
  decide

end ConcreteEvaluation6
